import Mathlib

/-!
Verification development for the KERN front end (lexer and recursive-descent
parser). The definitions below are a shallow embedding of the Python sources
`kern-lexer/test_lexer.py` and `kern-parser/test_parser.py`: each Python
method becomes a Lean function on an explicit state record, loops become
fuel-indexed recursions (the fuel bounds are generous and provably
sufficient on reachable states), and raised `ParseError`s become an explicit
error result. Machine strings are lists of characters. Python's `isspace`,
`isalpha`, `isdigit` are Unicode-aware; the embedding models them exactly on
ASCII (`pyIsSpace` includes the separator controls 0x1c-0x1f that
`str.isspace` accepts) and is therefore exact on inputs of ASCII characters.
Outside ASCII the real program diverges from any ASCII model — most notably
`'²'.isdigit()` holds but `int('²')` raises `ValueError`, a crash path of
`next_token` — so the universally quantified theorems below that depend on
character classification carry an explicit ASCII hypothesis, and the crash
path is reported as a code bug rather than modelled.
-/

/-- Token kinds, from class `TokenType` in `test_lexer.py`. -/
inductive TokenType where
  | ENTITY | RULE | FLOW | CONSTRAINT | IF | THEN | ELSE | LOOP | BREAK | HALT | AND | OR
  | IDENTIFIER | NUMBER
  | COLON | COMMA | DOT | LEFT_BRACE | RIGHT_BRACE | LEFT_PAREN | RIGHT_PAREN
  | EQUAL | NOT_EQUAL | GREATER | LESS | GREATER_EQUAL | LESS_EQUAL | ASSIGNMENT
  | ILLEGAL
  | EOF
  deriving DecidableEq, Repr

/-- A token's `value` field: Python stores `None`, a `str`, or an `int` there. -/
inductive TokenValue where
  | vNone
  | vStr (s : String)
  | vInt (n : Nat)
  deriving DecidableEq, Repr

/-- Class `Token` from `test_lexer.py`. `column` and `position` are integers
because the lexer records `column - len(...)`, which can go negative. -/
structure Token where
  token_type : TokenType
  value : TokenValue
  line : Nat
  column : Int
  position : Int
  deriving DecidableEq, Repr

/-- The mutable fields of class `Lexer` (`input`, `position`, `read_position`,
`ch`, `line`, `column`). -/
structure LexState where
  input : List Char
  position : Nat
  read_position : Nat
  ch : Char
  line : Nat
  column : Nat
  deriving DecidableEq, Repr

/-- The character the Python lexer sees at index `i`: `input[i]`, or the
sentinel `'\0'` at or past the end of the buffer. -/
def char_at (input : List Char) (i : Nat) : Char :=
  if i ≥ input.length then '\x00' else input.getD i '\x00'

/-- `Lexer._read_char`: load `input[read_position]` (or `'\0'` past the end),
advance both cursors, bump `column`, and on a newline bump `line` and reset
`column`. -/
def read_char (st : LexState) : LexState :=
  let c := char_at st.input st.read_position
  let st' := { st with ch := c, position := st.read_position,
                       read_position := st.read_position + 1,
                       column := st.column + 1 }
  if c = '\n' then { st' with line := st'.line + 1, column := 0 } else st'

/-- `Lexer._peek_char`. -/
def peek_char (st : LexState) : Char :=
  char_at st.input st.read_position

/-- `Lexer.__init__`: zero the cursors and immediately read the first character. -/
def mkLexer (input : String) : LexState :=
  read_char { input := input.data, position := 0, read_position := 0,
              ch := '\x00', line := 1, column := 0 }

/-- Python `str.isspace` restricted to ASCII, where it accepts exactly TAB,
LF, VT, FF, CR, the separator controls FS/GS/RS/US (0x1c-0x1f), and space. -/
def pyIsSpace (c : Char) : Bool :=
  c = ' ' || c = '\t' || c = '\n' || c = '\r' || c = '\x0b' || c = '\x0c' ||
  c = '\x1c' || c = '\x1d' || c = '\x1e' || c = '\x1f'

/-- Python `str.isdigit` restricted to ASCII. -/
def pyIsDigit (c : Char) : Bool := c.isDigit

/-- Free function `is_letter` from `test_lexer.py`: alphabetic or underscore. -/
def is_letter (c : Char) : Bool := c.isAlpha || c = '_'

/-- Characters that continue an identifier (`is_letter(ch) or ch.isdigit()`). -/
def is_ident_char (c : Char) : Bool := is_letter c || pyIsDigit c

/-- The loop of `Lexer._skip_whitespace`, fuel-indexed. The body first adjusts
`line`/`column` exactly as the Python does, then calls `_read_char`. -/
def skip_whitespace_aux : Nat → LexState → LexState
  | 0, st => st
  | fuel+1, st =>
    if pyIsSpace st.ch then
      let st' := if st.ch = '\n' then { st with line := st.line + 1, column := 0 }
                 else { st with column := st.column + 1 }
      skip_whitespace_aux fuel (read_char st')
    else st

/-- `Lexer._skip_whitespace`; `input.length + 1` fuel always suffices. -/
def skip_whitespace (st : LexState) : LexState :=
  skip_whitespace_aux (st.input.length + 1) st

/-- The scanning loop shared by `_read_identifier` and `_read_number`:
advance while the predicate holds of the current character. -/
def read_while_aux (p : Char → Bool) : Nat → LexState → LexState
  | 0, st => st
  | fuel+1, st =>
    if p st.ch then read_while_aux p fuel (read_char st) else st

/-- `Lexer._read_identifier`: scan the run, then slice
`input[start_pos:position]`. -/
def read_identifier (st : LexState) : String × LexState :=
  let start_pos := st.position
  let st' := read_while_aux is_ident_char (st.input.length + 1) st
  (String.mk ((st'.input.take st'.position).drop start_pos), st')

/-- Python `int(s)` on a digit string. -/
def str_to_int (cs : List Char) : Nat :=
  cs.foldl (fun acc c => 10 * acc + (c.toNat - 48)) 0

/-- `Lexer._read_number`: scan the digit run, slice it, convert with `int`. -/
def read_number (st : LexState) : Nat × LexState :=
  let start_pos := st.position
  let st' := read_while_aux pyIsDigit (st.input.length + 1) st
  (str_to_int ((st'.input.take st'.position).drop start_pos), st')

/-- Decimal digits of `n`, most significant first (fuel-indexed division loop;
fuel `n` always suffices). Models Python `str(number)`. -/
def py_str_aux : Nat → Nat → List Char
  | 0, n => [Nat.digitChar (n % 10)]
  | fuel+1, n =>
    if n < 10 then [Nat.digitChar n]
    else py_str_aux fuel (n / 10) ++ [Nat.digitChar (n % 10)]

/-- `len(str(number))` for a natural number. -/
def py_str_len (n : Nat) : Nat := (py_str_aux n n).length

/-- `Lexer._lookup_identifier`: the fixed keyword table. -/
def lookup_identifier (s : String) : TokenType :=
  if s = "entity" then .ENTITY
  else if s = "rule" then .RULE
  else if s = "flow" then .FLOW
  else if s = "constraint" then .CONSTRAINT
  else if s = "if" then .IF
  else if s = "then" then .THEN
  else if s = "else" then .ELSE
  else if s = "loop" then .LOOP
  else if s = "break" then .BREAK
  else if s = "halt" then .HALT
  else if s = "and" then .AND
  else if s = "or" then .OR
  else .IDENTIFIER

/-- The dispatch chain of `Lexer.next_token` (after `_skip_whitespace`,
before the unconditional trailing `_read_char`), translated branch by branch
in the source's order. -/
def next_token_core (st : LexState) : Token × LexState :=
  if st.ch = '=' then
      if peek_char st = '=' then
        let st1 := read_char st
        ({ token_type := .EQUAL, value := .vStr "==", line := st1.line,
           column := (st1.column : Int) - 1, position := (st1.position : Int) - 1 }, st1)
      else
        ({ token_type := .ASSIGNMENT, value := .vStr "=", line := st.line,
           column := (st.column : Int), position := (st.position : Int) }, st)
    else if st.ch = '!' then
      if peek_char st = '=' then
        let st1 := read_char st
        ({ token_type := .NOT_EQUAL, value := .vStr "!=", line := st1.line,
           column := (st1.column : Int) - 1, position := (st1.position : Int) - 1 }, st1)
      else
        let current_ch := st.ch
        let st1 := read_char st
        ({ token_type := .ILLEGAL, value := .vStr (String.mk [current_ch]), line := st1.line,
           column := (st1.column : Int), position := (st1.position : Int) }, st1)
    else if st.ch = '>' then
      if peek_char st = '=' then
        let st1 := read_char st
        ({ token_type := .GREATER_EQUAL, value := .vStr ">=", line := st1.line,
           column := (st1.column : Int) - 1, position := (st1.position : Int) - 1 }, st1)
      else
        ({ token_type := .GREATER, value := .vStr ">", line := st.line,
           column := (st.column : Int), position := (st.position : Int) }, st)
    else if st.ch = '<' then
      if peek_char st = '=' then
        let st1 := read_char st
        ({ token_type := .LESS_EQUAL, value := .vStr "<=", line := st1.line,
           column := (st1.column : Int) - 1, position := (st1.position : Int) - 1 }, st1)
      else
        ({ token_type := .LESS, value := .vStr "<", line := st.line,
           column := (st.column : Int), position := (st.position : Int) }, st)
    else if st.ch = '\x7b' then
      ({ token_type := .LEFT_BRACE, value := .vStr "\x7b", line := st.line,
         column := (st.column : Int), position := (st.position : Int) }, st)
    else if st.ch = '\x7d' then
      ({ token_type := .RIGHT_BRACE, value := .vStr "\x7d", line := st.line,
         column := (st.column : Int), position := (st.position : Int) }, st)
    else if st.ch = '(' then
      ({ token_type := .LEFT_PAREN, value := .vStr "(", line := st.line,
         column := (st.column : Int), position := (st.position : Int) }, st)
    else if st.ch = ')' then
      ({ token_type := .RIGHT_PAREN, value := .vStr ")", line := st.line,
         column := (st.column : Int), position := (st.position : Int) }, st)
    else if st.ch = ',' then
      ({ token_type := .COMMA, value := .vStr ",", line := st.line,
         column := (st.column : Int), position := (st.position : Int) }, st)
    else if st.ch = '.' then
      ({ token_type := .DOT, value := .vStr ".", line := st.line,
         column := (st.column : Int), position := (st.position : Int) }, st)
    else if st.ch = ':' then
      ({ token_type := .COLON, value := .vStr ":", line := st.line,
         column := (st.column : Int), position := (st.position : Int) }, st)
    else if st.ch = '\x00' then
      ({ token_type := .EOF, value := .vNone, line := st.line,
         column := (st.column : Int), position := (st.position : Int) }, st)
  else if is_letter st.ch then
    let r := read_identifier st
    ({ token_type := lookup_identifier r.1, value := .vStr r.1, line := r.2.line,
       column := (r.2.column : Int) - r.1.length,
       position := (r.2.position : Int) - r.1.length }, r.2)
  else if st.ch = '\x22' ∨ st.ch = '\x27' then
    let current_ch := st.ch
    let st1 := read_char st
    ({ token_type := .ILLEGAL, value := .vStr (String.mk [current_ch]), line := st1.line,
       column := (st1.column : Int), position := (st1.position : Int) }, st1)
  else if pyIsDigit st.ch then
    let r := read_number st
    ({ token_type := .NUMBER, value := .vInt r.1, line := r.2.line,
       column := (r.2.column : Int) - py_str_len r.1,
       position := (r.2.position : Int) - py_str_len r.1 }, r.2)
  else
    let current_ch := st.ch
    let st1 := read_char st
    ({ token_type := .ILLEGAL, value := .vStr (String.mk [current_ch]), line := st1.line,
       column := (st1.column : Int), position := (st1.position : Int) }, st1)

/-- `Lexer.next_token`: skip whitespace, dispatch, and note the unconditional
trailing `self._read_char()` (line 203 of the Python): every branch's result
state is passed through one more `read_char` before returning. -/
def next_token (st0 : LexState) : Token × LexState :=
  let r := next_token_core (skip_whitespace st0)
  (r.1, read_char r.2)

/-- The loop of `Lexer.tokenize_all`, fuel-indexed: append each token and stop
after the first `EOF`. `none` means the fuel ran out. -/
def tokenize_all_aux : Nat → LexState → Option (List Token)
  | 0, _ => none
  | fuel+1, st =>
    let r := next_token st
    if r.1.token_type = .EOF then some [r.1]
    else (tokenize_all_aux fuel r.2).map (r.1 :: ·)

/-- `Lexer.tokenize_all` on a fresh lexer; `input.length + 2` calls always
suffice to reach `EOF`. -/
def tokenize_all (input : String) : Option (List Token) :=
  tokenize_all_aux (input.data.length + 2) (mkLexer input)

/-!
## Parser embedding (`src/kern-parser/test_parser.py`)

Raised `ParseError`s are modelled by the `raised` alternative of `PResult`;
the surrounding `Option` is fuel exhaustion of a loop (Python's loops have no
bound, so `none` is observable non-termination within the given fuel).
-/

/-- Class `ParseError` from `test_parser.py`. -/
structure ParseError where
  message : String
  line : Nat
  column : Int
  position : Int
  deriving DecidableEq, Repr

/-- The kind string interpolated into error messages: the parser formats the
lexer's `TokenType` attributes, which are plain strings like "IDENTIFIER". -/
def tt_name : TokenType → String
  | .ENTITY => "ENTITY"
  | .RULE => "RULE"
  | .FLOW => "FLOW"
  | .CONSTRAINT => "CONSTRAINT"
  | .IF => "IF"
  | .THEN => "THEN"
  | .ELSE => "ELSE"
  | .LOOP => "LOOP"
  | .BREAK => "BREAK"
  | .HALT => "HALT"
  | .AND => "AND"
  | .OR => "OR"
  | .IDENTIFIER => "IDENTIFIER"
  | .NUMBER => "NUMBER"
  | .COLON => "COLON"
  | .COMMA => "COMMA"
  | .DOT => "DOT"
  | .LEFT_BRACE => "LEFT_BRACE"
  | .RIGHT_BRACE => "RIGHT_BRACE"
  | .LEFT_PAREN => "LEFT_PAREN"
  | .RIGHT_PAREN => "RIGHT_PAREN"
  | .EQUAL => "EQUAL"
  | .NOT_EQUAL => "NOT_EQUAL"
  | .GREATER => "GREATER"
  | .LESS => "LESS"
  | .GREATER_EQUAL => "GREATER_EQUAL"
  | .LESS_EQUAL => "LESS_EQUAL"
  | .ASSIGNMENT => "ASSIGNMENT"
  | .ILLEGAL => "ILLEGAL"
  | .EOF => "EOF"

/-- `FieldDef` AST node; its `name` is whatever `current_token.value` held. -/
structure FieldDef where
  name : TokenValue
  deriving DecidableEq, Repr

/-- `Condition`/`Expression`: the scaffold's `parse_expression` returns a bare
placeholder `Expression()` node. -/
inductive PCondition where
  | expression
  deriving DecidableEq, Repr

/-- `Term()`: a bare placeholder node. -/
inductive PTerm where
  | term
  deriving DecidableEq, Repr

/-- `Action` nodes: the scaffold returns bare `Action()` objects except for
predicate calls (`Predicate(name, arguments)`); class `Assignment` exists in
the source but is never constructed by the parser. -/
inductive PAction where
  | action
  | predicate (name : TokenValue) (arguments : List PTerm)
  | assignment (lhs_variable : TokenValue) (value : PTerm)
  deriving DecidableEq, Repr

/-- The four `Definition` variants. -/
inductive PDefinition where
  | entityDef (name : TokenValue) (fields : List FieldDef)
  | ruleDef (name : TokenValue) (condition : PCondition) (actions : List PAction)
  | flowDef (name : TokenValue) (actions : List PAction)
  | constraintDef (name : TokenValue) (condition : PCondition)
  deriving DecidableEq, Repr

/-- `Program` AST root. -/
structure Program where
  definitions : List PDefinition
  deriving DecidableEq, Repr

/-- The mutable fields of class `Parser`. -/
structure PState where
  lexer : LexState
  current_token : Token
  errors : List ParseError
  recovery_enabled : Bool
  deriving DecidableEq, Repr

/-- `Parser.__init__`: build the lexer and pull the first token. -/
def mkParser (input : String) : PState :=
  let lx := mkLexer input
  let r := next_token lx
  { lexer := r.2, current_token := r.1, errors := [], recovery_enabled := true }

/-- `Parser.next_token`: advance the one-token lookahead. -/
def p_next_token (st : PState) : PState :=
  let r := next_token st.lexer
  { st with lexer := r.2, current_token := r.1 }

/-- Outcome of a grammar routine: normal return, or a raised `ParseError`
(which in Python unwinds carrying the mutated parser state). -/
inductive PResult (α : Type) where
  | ok (a : α) (st : PState)
  | raised (e : ParseError) (st : PState)
  deriving DecidableEq, Repr

/-- `Parser.expect_token`: consume on a kind match, otherwise append a
diagnostic to `errors` and raise it. -/
def expect_token (tt : TokenType) (st : PState) : PResult Token :=
  if st.current_token.token_type = tt then
    .ok st.current_token (p_next_token st)
  else
    let e : ParseError :=
      { message := "Expected " ++ tt_name tt ++ ", got " ++ tt_name st.current_token.token_type,
        line := st.current_token.line, column := st.current_token.column,
        position := st.current_token.position }
    .raised e { st with errors := st.errors ++ [e] }

/-- `Parser.is_at_end`. -/
def is_at_end (st : PState) : Bool := st.current_token.token_type = .EOF

/-- `Parser.is_current_token`. -/
def is_current_token (tt : TokenType) (st : PState) : Bool :=
  st.current_token.token_type = tt

/-- `Parser.parse_field_def`: consume one identifier; on anything else return
`None` without consuming. -/
def parse_field_def (st : PState) : Option FieldDef × PState :=
  if is_current_token .IDENTIFIER st then
    (some { name := st.current_token.value }, p_next_token st)
  else (none, st)

/-- The field-collecting `while` loop of `Parser.parse_entity_def`. When
`parse_field_def` returns `None` the loop repeats on an unchanged state, so
the Python spins forever; here the fuel runs out and yields `none`. -/
def entity_fields_loop : Nat → PState → List FieldDef → Option (List FieldDef × PState)
  | 0, _, _ => none
  | fuel+1, st, fields =>
    if !is_current_token .RIGHT_BRACE st && !is_at_end st then
      match parse_field_def st with
      | (some f, st') => entity_fields_loop fuel st' (fields ++ [f])
      | (none, st') => entity_fields_loop fuel st' fields
    else some (fields, st)

/-- `Parser.parse_entity_def`. -/
def parse_entity_def (fuel : Nat) (st : PState) : Option (PResult PDefinition) :=
  match expect_token .ENTITY st with
  | .raised e st' => some (.raised e st')
  | .ok _ st1 =>
    let name := st1.current_token.value
    match expect_token .IDENTIFIER st1 with
    | .raised e st' => some (.raised e st')
    | .ok _ st2 =>
      match expect_token .LEFT_BRACE st2 with
      | .raised e st' => some (.raised e st')
      | .ok _ st3 =>
        match entity_fields_loop fuel st3 [] with
        | none => none
        | some (fields, st4) =>
          match expect_token .RIGHT_BRACE st4 with
          | .raised e st' => some (.raised e st')
          | .ok _ st5 => some (.ok (.entityDef name fields) st5)

/-- `Parser.parse_expression`: a stub returning a placeholder node. -/
def parse_expression (st : PState) : PCondition × PState := (.expression, st)

/-- `Parser.parse_condition` delegates to `parse_expression`. -/
def parse_condition (st : PState) : PCondition × PState := parse_expression st

/-- `Parser.parse_predicate`. Note it expects `IDENTIFIER` as the *current*
token, although its caller `parse_action` has already consumed it. -/
def parse_predicate (st : PState) : PResult PAction :=
  let name := st.current_token.value
  match expect_token .IDENTIFIER st with
  | .raised e st' => .raised e st'
  | .ok _ st1 =>
    match expect_token .LEFT_PAREN st1 with
    | .raised e st' => .raised e st'
    | .ok _ st2 =>
      if !is_current_token .RIGHT_PAREN st2 then
        if is_current_token .IDENTIFIER st2 || is_current_token .NUMBER st2 then
          let st3 := p_next_token st2
          match expect_token .RIGHT_PAREN st3 with
          | .raised e st' => .raised e st'
          | .ok _ st4 => .ok (.predicate name [.term]) st4
        else
          match expect_token .RIGHT_PAREN st2 with
          | .raised e st' => .raised e st'
          | .ok _ st4 => .ok (.predicate name []) st4
      else
        match expect_token .RIGHT_PAREN st2 with
        | .raised e st' => .raised e st'
        | .ok _ st4 => .ok (.predicate name []) st4

mutual

/-- `Parser.parse_action`; returns `none` in the `ok` payload where Python
returns `None`. -/
def parse_action : Nat → PState → Option (PResult (Option PAction))
  | 0, _ => none
  | fuel+1, st =>
    if is_current_token .IDENTIFIER st then
      let st1 := p_next_token st
      if is_current_token .LEFT_PAREN st1 then
        match parse_predicate st1 with
        | .raised e st' => some (.raised e st')
        | .ok a st' => some (.ok (some a) st')
      else
        some (.ok (some .action) st1)
    else if is_current_token .IF st then
      let st1 := p_next_token st
      let c := parse_condition st1
      match expect_token .THEN c.2 with
      | .raised e st' => some (.raised e st')
      | .ok _ st3 =>
        match parse_action_list fuel st3 with
        | none => none
        | some (.raised e st') => some (.raised e st')
        | some (.ok _ st4) =>
          if is_current_token .ELSE st4 then
            let st5 := p_next_token st4
            match parse_action_list fuel st5 with
            | none => none
            | some (.raised e st') => some (.raised e st')
            | some (.ok _ st6) => some (.ok (some .action) st6)
          else
            some (.ok (some .action) st4)
    else if is_current_token .HALT st then
      some (.ok (some .action) (p_next_token st))
    else
      some (.ok none st)

/-- `Parser.parse_action_list`: first action, then the comma loop. -/
def parse_action_list : Nat → PState → Option (PResult (List PAction))
  | 0, _ => none
  | fuel+1, st =>
    match parse_action fuel st with
    | none => none
    | some (.raised e st') => some (.raised e st')
    | some (.ok first st1) =>
      match first with
      | some a => parse_action_comma_loop fuel [a] st1
      | none => parse_action_comma_loop fuel [] st1

/-- The `while is_current_token(COMMA)` loop of `parse_action_list`; a `None`
action breaks out of the loop. -/
def parse_action_comma_loop : Nat → List PAction → PState → Option (PResult (List PAction))
  | 0, _, _ => none
  | fuel+1, actions, st =>
    if is_current_token .COMMA st then
      let st1 := p_next_token st
      match parse_action fuel st1 with
      | none => none
      | some (.raised e st') => some (.raised e st')
      | some (.ok (some a) st2) => parse_action_comma_loop fuel (actions ++ [a]) st2
      | some (.ok none st2) => some (.ok actions st2)
    else
      some (.ok actions st)

end

/-- `Parser.parse_rule_def`. -/
def parse_rule_def (fuel : Nat) (st : PState) : Option (PResult PDefinition) :=
  match expect_token .RULE st with
  | .raised e st' => some (.raised e st')
  | .ok _ st1 =>
    let name := st1.current_token.value
    match expect_token .IDENTIFIER st1 with
    | .raised e st' => some (.raised e st')
    | .ok _ st2 =>
      match expect_token .COLON st2 with
      | .raised e st' => some (.raised e st')
      | .ok _ st3 =>
        match expect_token .IF st3 with
        | .raised e st' => some (.raised e st')
        | .ok _ st4 =>
          let c := parse_condition st4
          match expect_token .THEN c.2 with
          | .raised e st' => some (.raised e st')
          | .ok _ st6 =>
            match parse_action_list fuel st6 with
            | none => none
            | some (.raised e st') => some (.raised e st')
            | some (.ok actions st7) => some (.ok (.ruleDef name c.1 actions) st7)

/-- `Parser.parse_flow_def`. -/
def parse_flow_def (fuel : Nat) (st : PState) : Option (PResult PDefinition) :=
  match expect_token .FLOW st with
  | .raised e st' => some (.raised e st')
  | .ok _ st1 =>
    let name := st1.current_token.value
    match expect_token .IDENTIFIER st1 with
    | .raised e st' => some (.raised e st')
    | .ok _ st2 =>
      match expect_token .LEFT_BRACE st2 with
      | .raised e st' => some (.raised e st')
      | .ok _ st3 =>
        match parse_action_list fuel st3 with
        | none => none
        | some (.raised e st') => some (.raised e st')
        | some (.ok actions st4) =>
          match expect_token .RIGHT_BRACE st4 with
          | .raised e st' => some (.raised e st')
          | .ok _ st5 => some (.ok (.flowDef name actions) st5)

/-- `Parser.parse_constraint_def` (no loops, so no fuel needed). -/
def parse_constraint_def (st : PState) : PResult PDefinition :=
  match expect_token .CONSTRAINT st with
  | .raised e st' => .raised e st'
  | .ok _ st1 =>
    let name := st1.current_token.value
    match expect_token .IDENTIFIER st1 with
    | .raised e st' => .raised e st'
    | .ok _ st2 =>
      match expect_token .COLON st2 with
      | .raised e st' => .raised e st'
      | .ok _ st3 =>
        let c := parse_condition st3
        .ok (.constraintDef name c.1) c.2

/-- `Parser.parse_definition`: dispatch on the current token; on an
unexpected token append a diagnostic, skip it, and return `None`. -/
def parse_definition (fuel : Nat) (st : PState) : Option (PResult (Option PDefinition)) :=
  if is_current_token .ENTITY st then
    match parse_entity_def fuel st with
    | none => none
    | some (.raised e st') => some (.raised e st')
    | some (.ok d st') => some (.ok (some d) st')
  else if is_current_token .RULE st then
    match parse_rule_def fuel st with
    | none => none
    | some (.raised e st') => some (.raised e st')
    | some (.ok d st') => some (.ok (some d) st')
  else if is_current_token .FLOW st then
    match parse_flow_def fuel st with
    | none => none
    | some (.raised e st') => some (.raised e st')
    | some (.ok d st') => some (.ok (some d) st')
  else if is_current_token .CONSTRAINT st then
    match parse_constraint_def st with
    | .raised e st' => some (.raised e st')
    | .ok d st' => some (.ok (some d) st')
  else if is_current_token .EOF st then
    some (.ok none st)
  else
    let e : ParseError :=
      { message := "Unexpected token " ++ tt_name st.current_token.token_type ++
          ", expected a definition keyword",
        line := st.current_token.line, column := st.current_token.column,
        position := st.current_token.position }
    some (.ok none (p_next_token { st with errors := st.errors ++ [e] }))

/-- `Parser.skip_until`: drop tokens until one of `expected_tokens` or `EOF`. -/
def skip_until (kws : List TokenType) : Nat → PState → Option PState
  | 0, _ => none
  | fuel+1, st =>
    if is_at_end st then some st
    else if st.current_token.token_type ∈ kws then some st
    else skip_until kws fuel (p_next_token st)

/-- The `while not is_at_end` loop of `Parser.parse_program`, with its
`except ParseError` recovery arm. -/
def program_loop : Nat → PState → List PDefinition → Option (Program × PState)
  | 0, _, _ => none
  | fuel+1, st, definitions =>
    if is_at_end st then some ({ definitions := definitions }, st)
    else
      match parse_definition (fuel+1) st with
      | none => none
      | some (.ok (some d) st') => program_loop fuel st' (definitions ++ [d])
      | some (.ok none st') => program_loop fuel st' definitions
      | some (.raised _ st') =>
        if st'.recovery_enabled then
          match skip_until [.ENTITY, .RULE, .FLOW, .CONSTRAINT] (fuel+1) st' with
          | none => none
          | some st'' => program_loop fuel st'' definitions
        else
          some ({ definitions := definitions }, st')

/-- `Parser.parse_program` on a fresh parser over `input`. The returned
`PState` carries the accumulated `errors` list (the diagnostics). -/
def parse_program (fuel : Nat) (input : String) : Option (Program × PState) :=
  program_loop fuel (mkParser input) []

/-!
## Lexer state invariant and step lemmas

`lex_wf` holds of every reachable lexer state: the read cursor is one past
`position`, and `ch` caches the character at `position` (with the `'\0'`
sentinel past the end). `read_char` re-establishes it from any state.
-/

/-- The reachable-state invariant of the lexer. -/
def lex_wf (st : LexState) : Prop :=
  st.read_position = st.position + 1 ∧ st.ch = char_at st.input st.position

instance lex_wf_decidable (st : LexState) : Decidable (lex_wf st) :=
  inferInstanceAs (Decidable (st.read_position = st.position + 1 ∧
    st.ch = char_at st.input st.position))

/-- The twelve keyword kinds. -/
def is_keyword : TokenType → Bool
  | .ENTITY | .RULE | .FLOW | .CONSTRAINT | .IF | .THEN | .ELSE | .LOOP
  | .BREAK | .HALT | .AND | .OR => true
  | _ => false

/-- The symbol and operator kinds. -/
def is_symbol : TokenType → Bool
  | .COLON | .COMMA | .DOT | .LEFT_BRACE | .RIGHT_BRACE | .LEFT_PAREN | .RIGHT_PAREN
  | .EQUAL | .NOT_EQUAL | .GREATER | .LESS | .GREATER_EQUAL | .LESS_EQUAL
  | .ASSIGNMENT => true
  | _ => false

/-- The source text of each symbol/operator kind. -/
def symbol_lexeme : TokenType → String
  | .COLON => ":"
  | .COMMA => ","
  | .DOT => "."
  | .LEFT_BRACE => "\x7b"
  | .RIGHT_BRACE => "\x7d"
  | .LEFT_PAREN => "("
  | .RIGHT_PAREN => ")"
  | .EQUAL => "=="
  | .NOT_EQUAL => "!="
  | .GREATER => ">"
  | .LESS => "<"
  | .GREATER_EQUAL => ">="
  | .LESS_EQUAL => "<="
  | .ASSIGNMENT => "="
  | _ => ""

/-- The kind/payload discipline the lexer actually maintains: identifiers and
keywords carry text, numbers carry an integer, symbols carry their lexeme
text, `ILLEGAL` carries a one-character string, `EOF` carries nothing. -/
def payload_ok (t : Token) : Prop :=
  ((is_keyword t.token_type = true ∨ t.token_type = .IDENTIFIER) →
    ∃ s : String, t.value = .vStr s) ∧
  (t.token_type = .NUMBER → ∃ n : Nat, t.value = .vInt n) ∧
  (is_symbol t.token_type = true → t.value = .vStr (symbol_lexeme t.token_type)) ∧
  (t.token_type = .ILLEGAL → ∃ c : Char, t.value = .vStr (String.mk [c])) ∧
  (t.token_type = .EOF → t.value = .vNone)

/-- The content-level kind/payload discipline, relative to the state `st` the
dispatch chain runs on: identifiers and keywords carry exactly the scanned
run (their text), numbers carry exactly `int` of the scanned digit run,
symbols carry their lexeme text, `ILLEGAL` carries exactly the offending
(current) character, `EOF` carries nothing. -/
def payload_ok_at (st : LexState) (t : Token) : Prop :=
  ((is_keyword t.token_type = true ∨ t.token_type = .IDENTIFIER) →
    t.value = .vStr (read_identifier st).1) ∧
  (t.token_type = .NUMBER → t.value = .vInt (read_number st).1) ∧
  (is_symbol t.token_type = true → t.value = .vStr (symbol_lexeme t.token_type)) ∧
  (t.token_type = .ILLEGAL → t.value = .vStr (String.mk [st.ch])) ∧
  (t.token_type = .EOF → t.value = .vNone)

/-- The content-level discipline implies the kind-level one. -/
theorem payload_ok_of_at (st : LexState) (t : Token) (h : payload_ok_at st t) :
    payload_ok t :=
  ⟨fun ha => ⟨_, h.1 ha⟩, fun ha => ⟨_, h.2.1 ha⟩, h.2.2.1,
   fun ha => ⟨st.ch, h.2.2.2.1 ha⟩, h.2.2.2.2⟩

/-- Ordering between successive tokens: `line` and `offset` never decrease. -/
def token_le (t u : Token) : Prop := t.line ≤ u.line ∧ t.position ≤ u.position

/-- Iterated lexer stepping: the state after `k` further calls to
`next_token` (used to state stream-stabilization properties). -/
def lex_iter : Nat → LexState → LexState
  | 0, st => st
  | k+1, st => lex_iter k (next_token st).2

theorem char_at_of_lt {l : List Char} {i : Nat} (h : i < l.length) :
    char_at l i = l[i] := by
  rw [char_at, if_neg (by omega)]
  exact List.getD_eq_getElem l '\x00' h

theorem char_at_of_ge {l : List Char} {i : Nat} (h : l.length ≤ i) :
    char_at l i = '\x00' := by
  rw [char_at, if_pos (by omega)]

@[simp] theorem read_char_input (st : LexState) : (read_char st).input = st.input := by
  simp only [read_char]; split <;> rfl

@[simp] theorem read_char_position (st : LexState) :
    (read_char st).position = st.read_position := by
  simp only [read_char]; split <;> rfl

@[simp] theorem read_char_read_position (st : LexState) :
    (read_char st).read_position = st.read_position + 1 := by
  simp only [read_char]; split <;> rfl

@[simp] theorem read_char_ch (st : LexState) :
    (read_char st).ch = char_at st.input st.read_position := by
  simp only [read_char]; split <;> rfl

theorem read_char_line_le (st : LexState) : st.line ≤ (read_char st).line := by
  simp only [read_char]; split <;> simp

theorem lex_wf_read_char (st : LexState) : lex_wf (read_char st) := by
  constructor <;> simp [lex_wf]

theorem lex_wf_mkLexer (input : String) : lex_wf (mkLexer input) :=
  lex_wf_read_char _

theorem pyIsSpace_null : pyIsSpace '\x00' = false := by decide

theorem is_ident_char_null : is_ident_char '\x00' = false := by decide

theorem pyIsDigit_null : pyIsDigit '\x00' = false := by decide

/-- A well-formed state looking at an in-range position has `ch` equal to the
character there. -/
theorem lex_wf_ch_eq {st : LexState} (hwf : lex_wf st) (h : st.position < st.input.length) :
    st.ch = st.input[st.position] := by
  rw [hwf.2, char_at_of_lt h]

/-- At a well-formed state, `drop position` starts with `ch` when in range. -/
theorem drop_cons_of_wf {st : LexState} (hwf : lex_wf st) (h : st.position < st.input.length) :
    st.input.drop st.position = st.ch :: st.input.drop (st.position + 1) := by
  rw [List.drop_eq_getElem_cons h, lex_wf_ch_eq hwf h]

/-- If `ch` is not the NUL sentinel, the position is in range. -/
theorem pos_lt_of_ch_ne_null {st : LexState} (hwf : lex_wf st) (h : st.ch ≠ '\x00') :
    st.position < st.input.length := by
  by_contra hc
  exact h (hwf.2.trans (char_at_of_ge (by omega)))

/-- Characterization of the `_skip_whitespace` loop on well-formed states with
enough fuel: it lands exactly past the maximal whitespace run, preserving the
invariant and the input, and never decreasing `line`. -/
theorem skip_whitespace_aux_spec :
    ∀ (fuel : Nat) (st : LexState), lex_wf st →
      ((st.input.drop st.position).takeWhile pyIsSpace).length < fuel →
      lex_wf (skip_whitespace_aux fuel st) ∧
      (skip_whitespace_aux fuel st).input = st.input ∧
      (skip_whitespace_aux fuel st).position =
        st.position + ((st.input.drop st.position).takeWhile pyIsSpace).length ∧
      pyIsSpace (skip_whitespace_aux fuel st).ch = false ∧
      st.line ≤ (skip_whitespace_aux fuel st).line := by
  intro fuel
  induction fuel with
  | zero => intro st _ hfuel; exact absurd hfuel (by omega)
  | succ n ih =>
    intro st hwf hfuel
    by_cases hsp : pyIsSpace st.ch
    · have hch0 : st.ch ≠ '\x00' := by
        intro h; rw [h, pyIsSpace_null] at hsp; exact Bool.false_ne_true hsp
      have hpos : st.position < st.input.length := pos_lt_of_ch_ne_null hwf hch0
      have hdrop := drop_cons_of_wf hwf hpos
      have htw : (st.input.drop st.position).takeWhile pyIsSpace =
          st.ch :: (st.input.drop (st.position + 1)).takeWhile pyIsSpace := by
        rw [hdrop, List.takeWhile_cons_of_pos hsp]
      set stm := if st.ch = '\n' then { st with line := st.line + 1, column := 0 }
                 else { st with column := st.column + 1 } with hstm
      have hmi : stm.input = st.input := by rw [hstm]; split <;> rfl
      have hmp : stm.position = st.position := by rw [hstm]; split <;> rfl
      have hmr : stm.read_position = st.read_position := by rw [hstm]; split <;> rfl
      have hml : st.line ≤ stm.line := by rw [hstm]; split <;> simp
      have hstep : skip_whitespace_aux (n+1) st = skip_whitespace_aux n (read_char stm) := by
        rw [skip_whitespace_aux, if_pos hsp]
      have hrc_pos : (read_char stm).position = st.position + 1 := by
        rw [read_char_position, hmr, hwf.1]
      have hrc_input : (read_char stm).input = st.input := by
        rw [read_char_input, hmi]
      have ihres := ih (read_char stm) (lex_wf_read_char stm) (by
        rw [hrc_input, hrc_pos]
        have : ((st.input.drop (st.position + 1)).takeWhile pyIsSpace).length + 1 =
            ((st.input.drop st.position).takeWhile pyIsSpace).length := by
          rw [htw]; simp
        omega)
      rcases ihres with ⟨h1, h2, h3, h4, h5⟩
      rw [hstep]
      refine ⟨h1, by rw [h2, hrc_input], ?_, h4, ?_⟩
      · rw [h3, hrc_input, hrc_pos, htw]
        simp; omega
      · exact le_trans hml (le_trans (read_char_line_le stm) h5)
    · have hstep : skip_whitespace_aux (n+1) st = st := by
        rw [skip_whitespace_aux, if_neg hsp]
      have htw : ((st.input.drop st.position).takeWhile pyIsSpace).length = 0 := by
        by_cases hpos : st.position < st.input.length
        · rw [drop_cons_of_wf hwf hpos, List.takeWhile_cons_of_neg hsp]; rfl
        · rw [List.drop_eq_nil_of_le (by omega)]; rfl
      rw [hstep]
      exact ⟨hwf, rfl, by omega, Bool.of_not_eq_true hsp, le_refl _⟩

/-- Same characterization for the scanning loop shared by `_read_identifier`
and `_read_number`, for any predicate rejecting the NUL sentinel. -/
theorem read_while_aux_spec (p : Char → Bool) (hp0 : p '\x00' = false) :
    ∀ (fuel : Nat) (st : LexState), lex_wf st →
      ((st.input.drop st.position).takeWhile p).length < fuel →
      lex_wf (read_while_aux p fuel st) ∧
      (read_while_aux p fuel st).input = st.input ∧
      (read_while_aux p fuel st).position =
        st.position + ((st.input.drop st.position).takeWhile p).length ∧
      p (read_while_aux p fuel st).ch = false ∧
      st.line ≤ (read_while_aux p fuel st).line := by
  intro fuel
  induction fuel with
  | zero => intro st _ hfuel; exact absurd hfuel (by omega)
  | succ n ih =>
    intro st hwf hfuel
    by_cases hc : p st.ch
    · have hch0 : st.ch ≠ '\x00' := by
        intro h; rw [h, hp0] at hc; exact Bool.false_ne_true hc
      have hpos : st.position < st.input.length := pos_lt_of_ch_ne_null hwf hch0
      have hdrop := drop_cons_of_wf hwf hpos
      have htw : (st.input.drop st.position).takeWhile p =
          st.ch :: (st.input.drop (st.position + 1)).takeWhile p := by
        rw [hdrop, List.takeWhile_cons_of_pos hc]
      have hstep : read_while_aux p (n+1) st = read_while_aux p n (read_char st) := by
        rw [read_while_aux, if_pos hc]
      have hrc_pos : (read_char st).position = st.position + 1 := by
        rw [read_char_position, hwf.1]
      have ihres := ih (read_char st) (lex_wf_read_char st) (by
        rw [read_char_input, hrc_pos]
        have : ((st.input.drop (st.position + 1)).takeWhile p).length + 1 =
            ((st.input.drop st.position).takeWhile p).length := by
          rw [htw]; simp
        omega)
      rcases ihres with ⟨h1, h2, h3, h4, h5⟩
      rw [hstep]
      refine ⟨h1, by rw [h2, read_char_input], ?_, h4, ?_⟩
      · rw [h3, read_char_input, hrc_pos, htw]
        simp; omega
      · exact le_trans (read_char_line_le st) h5
    · have hstep : read_while_aux p (n+1) st = st := by
        rw [read_while_aux, if_neg hc]
      have htw : ((st.input.drop st.position).takeWhile p).length = 0 := by
        by_cases hpos : st.position < st.input.length
        · rw [drop_cons_of_wf hwf hpos, List.takeWhile_cons_of_neg hc]; rfl
        · rw [List.drop_eq_nil_of_le (by omega)]; rfl
      rw [hstep]
      exact ⟨hwf, rfl, by omega, Bool.of_not_eq_true hc, le_refl _⟩

/-- Taking the length of the `takeWhile` prefix recovers the prefix. -/
theorem take_takeWhile_length {α : Type} (p : α → Bool) (l : List α) :
    l.take (l.takeWhile p).length = l.takeWhile p := by
  induction l with
  | nil => rfl
  | cons a t ih =>
    by_cases h : p a
    · rw [List.takeWhile_cons_of_pos h]; simp [ih]
    · rw [List.takeWhile_cons_of_neg h]; rfl

/-- The fuel `input.length + 1` given to the scanning loops always suffices
on any state: the scanned run is a prefix of a suffix of the input. -/
theorem takeWhile_drop_length_lt (p : Char → Bool) (l : List Char) (n : Nat) :
    ((l.drop n).takeWhile p).length < l.length + 1 := by
  have h1 := (List.takeWhile_sublist p (l := l.drop n)).length_le
  have h2 := List.length_drop n l
  omega

/-- `_skip_whitespace` with its actual fuel. -/
theorem skip_whitespace_spec (st : LexState) (hwf : lex_wf st) :
    lex_wf (skip_whitespace st) ∧
    (skip_whitespace st).input = st.input ∧
    (skip_whitespace st).position =
      st.position + ((st.input.drop st.position).takeWhile pyIsSpace).length ∧
    pyIsSpace (skip_whitespace st).ch = false ∧
    st.line ≤ (skip_whitespace st).line :=
  skip_whitespace_aux_spec (st.input.length + 1) st hwf
    (takeWhile_drop_length_lt pyIsSpace st.input st.position)

/-- `_read_identifier` returns exactly the maximal identifier run starting at
`position` and leaves the cursor just past it. -/
theorem read_identifier_spec (st : LexState) (hwf : lex_wf st) :
    (read_identifier st).1 =
      String.mk ((st.input.drop st.position).takeWhile is_ident_char) ∧
    lex_wf (read_identifier st).2 ∧
    (read_identifier st).2.input = st.input ∧
    (read_identifier st).2.position =
      st.position + ((st.input.drop st.position).takeWhile is_ident_char).length ∧
    st.line ≤ (read_identifier st).2.line := by
  obtain ⟨h1, h2, h3, _, h5⟩ :=
    read_while_aux_spec is_ident_char is_ident_char_null (st.input.length + 1) st hwf
      (takeWhile_drop_length_lt is_ident_char st.input st.position)
  refine ⟨?_, h1, h2, h3, h5⟩
  simp only [read_identifier]
  rw [h2, h3, ← List.take_drop, take_takeWhile_length]

/-- `_read_number` returns `int` of the maximal digit run starting at
`position` and leaves the cursor just past it. -/
theorem read_number_spec (st : LexState) (hwf : lex_wf st) :
    (read_number st).1 = str_to_int ((st.input.drop st.position).takeWhile pyIsDigit) ∧
    lex_wf (read_number st).2 ∧
    (read_number st).2.input = st.input ∧
    (read_number st).2.position =
      st.position + ((st.input.drop st.position).takeWhile pyIsDigit).length ∧
    st.line ≤ (read_number st).2.line := by
  obtain ⟨h1, h2, h3, _, h5⟩ :=
    read_while_aux_spec pyIsDigit pyIsDigit_null (st.input.length + 1) st hwf
      (takeWhile_drop_length_lt pyIsDigit st.input st.position)
  refine ⟨?_, h1, h2, h3, h5⟩
  simp only [read_number]
  rw [h2, h3, ← List.take_drop, take_takeWhile_length]

/-- An ASCII digit's code point lies in `[48, 57]`. -/
theorem pyIsDigit_toNat {c : Char} (h : pyIsDigit c = true) :
    48 ≤ c.toNat ∧ c.toNat ≤ 57 := by
  rw [pyIsDigit, Char.isDigit, Bool.and_eq_true] at h
  obtain ⟨h1, h2⟩ := h
  have h1' : (48 : UInt32) ≤ c.val := of_decide_eq_true h1
  have h2' : c.val ≤ (57 : UInt32) := of_decide_eq_true h2
  exact ⟨UInt32.le_toNat_of_le (by norm_num) h1', UInt32.toNat_le_of_le (by norm_num) h2'⟩

/-- The folding loop of `int()` stays below `(acc+1) * 10 ^ digits`. -/
theorem str_to_int_foldl_lt (cs : List Char) (hd : ∀ c ∈ cs, pyIsDigit c = true) :
    ∀ acc : Nat,
      List.foldl (fun acc c => 10 * acc + (c.toNat - 48)) acc cs < (acc + 1) * 10 ^ cs.length := by
  induction cs with
  | nil => intro acc; simp
  | cons c t ih =>
    intro acc
    have hc := hd c (List.mem_cons_self c t)
    have hle : c.toNat - 48 ≤ 9 := by have := pyIsDigit_toNat hc; omega
    have hrec := ih (fun x hx => hd x (List.mem_cons_of_mem _ hx)) (10 * acc + (c.toNat - 48))
    have hmul : (10 * acc + (c.toNat - 48) + 1) * 10 ^ t.length ≤ (acc + 1) * 10 ^ (t.length + 1) := by
      have hstep : 10 * acc + (c.toNat - 48) + 1 ≤ (acc + 1) * 10 := by omega
      calc (10 * acc + (c.toNat - 48) + 1) * 10 ^ t.length
          ≤ ((acc + 1) * 10) * 10 ^ t.length := Nat.mul_le_mul_right _ hstep
        _ = (acc + 1) * 10 ^ (t.length + 1) := by ring
    calc List.foldl _ acc (c :: t) =
        List.foldl _ (10 * acc + (c.toNat - 48)) t := rfl
      _ < (10 * acc + (c.toNat - 48) + 1) * 10 ^ t.length := hrec
      _ ≤ (acc + 1) * 10 ^ (t.length + 1) := hmul
      _ = (acc + 1) * 10 ^ (c :: t).length := by rfl

/-- `int` of a digit string is below `10 ^ length`. -/
theorem str_to_int_lt (cs : List Char) (hd : ∀ c ∈ cs, pyIsDigit c = true) :
    str_to_int cs < 10 ^ cs.length := by
  have := str_to_int_foldl_lt cs hd 0
  simpa [str_to_int] using this

/-- `len(str(n))` is at most `k` whenever `n < 10 ^ k` (and `k > 0`). -/
theorem py_str_aux_length_le :
    ∀ (fuel n k : Nat), 0 < k → n < 10 ^ k → n ≤ fuel → (py_str_aux fuel n).length ≤ k := by
  intro fuel
  induction fuel with
  | zero =>
    intro n k hk _ hn
    rw [py_str_aux]
    simpa using hk
  | succ m ih =>
    intro n k hk hnk hnf
    rw [py_str_aux]
    by_cases h10 : n < 10
    · rw [if_pos h10]; simpa using hk
    · rw [if_neg h10]
      have hk2 : 2 ≤ k := by
        by_contra h
        have hk1 : k = 1 := by omega
        rw [hk1, pow_one] at hnk
        omega
      have hdiv : n / 10 < 10 ^ (k - 1) := by
        rw [Nat.div_lt_iff_lt_mul (by norm_num)]
        have : 10 ^ (k - 1) * 10 = 10 ^ k := by
          rw [← pow_succ]; congr 1; omega
        omega
      have hfuel : n / 10 ≤ m := by
        have := Nat.div_lt_self (by omega : 0 < n) (by norm_num : 1 < 10)
        omega
      have := ih (n / 10) (k - 1) (by omega) hdiv hfuel
      simp only [List.length_append, List.length_singleton]
      omega

theorem py_str_len_le {n k : Nat} (hk : 0 < k) (hn : n < 10 ^ k) : py_str_len n ≤ k :=
  py_str_aux_length_le n n k hk hn (le_refl n)

/-!
## Properties of `next_token`
-/

/-- `_lookup_identifier` only produces keyword kinds or `IDENTIFIER`. -/
theorem lookup_identifier_shape (s : String) :
    (is_keyword (lookup_identifier s) = true ∨ lookup_identifier s = .IDENTIFIER) ∧
    lookup_identifier s ≠ .NUMBER ∧
    is_symbol (lookup_identifier s) = false ∧
    lookup_identifier s ≠ .ILLEGAL ∧
    lookup_identifier s ≠ .EOF := by
  delta lookup_identifier
  by_cases h1 : s = "entity"
  · rw [if_pos h1]; decide
  rw [if_neg h1]
  by_cases h2 : s = "rule"
  · rw [if_pos h2]; decide
  rw [if_neg h2]
  by_cases h3 : s = "flow"
  · rw [if_pos h3]; decide
  rw [if_neg h3]
  by_cases h4 : s = "constraint"
  · rw [if_pos h4]; decide
  rw [if_neg h4]
  by_cases h5 : s = "if"
  · rw [if_pos h5]; decide
  rw [if_neg h5]
  by_cases h6 : s = "then"
  · rw [if_pos h6]; decide
  rw [if_neg h6]
  by_cases h7 : s = "else"
  · rw [if_pos h7]; decide
  rw [if_neg h7]
  by_cases h8 : s = "loop"
  · rw [if_pos h8]; decide
  rw [if_neg h8]
  by_cases h9 : s = "break"
  · rw [if_pos h9]; decide
  rw [if_neg h9]
  by_cases h10 : s = "halt"
  · rw [if_pos h10]; decide
  rw [if_neg h10]
  by_cases h11 : s = "and"
  · rw [if_pos h11]; decide
  rw [if_neg h11]
  by_cases h12 : s = "or"
  · rw [if_pos h12]; decide
  rw [if_neg h12]; decide

/-!
Branch equations for `next_token_core`: one conditional equation per arm of
the Python `if`/`elif` chain, in source order.
-/

theorem core_eq_equal (st : LexState) (c1 : st.ch = '=') (p : peek_char st = '=') :
    next_token_core st =
      ({ token_type := .EQUAL, value := .vStr "==", line := (read_char st).line,
         column := ((read_char st).column : Int) - 1,
         position := ((read_char st).position : Int) - 1 }, read_char st) := by
  delta next_token_core
  rw [if_pos c1, if_pos p]

theorem core_eq_assignment (st : LexState) (c1 : st.ch = '=') (p : ¬ peek_char st = '=') :
    next_token_core st =
      ({ token_type := .ASSIGNMENT, value := .vStr "=", line := st.line,
         column := (st.column : Int), position := (st.position : Int) }, st) := by
  delta next_token_core
  rw [if_pos c1, if_neg p]

theorem core_eq_not_equal (st : LexState) (n1 : ¬ st.ch = '=') (c2 : st.ch = '!')
    (p : peek_char st = '=') :
    next_token_core st =
      ({ token_type := .NOT_EQUAL, value := .vStr "!=", line := (read_char st).line,
         column := ((read_char st).column : Int) - 1,
         position := ((read_char st).position : Int) - 1 }, read_char st) := by
  delta next_token_core
  rw [if_neg n1, if_pos c2, if_pos p]

theorem core_eq_bang (st : LexState) (n1 : ¬ st.ch = '=') (c2 : st.ch = '!')
    (p : ¬ peek_char st = '=') :
    next_token_core st =
      ({ token_type := .ILLEGAL, value := .vStr (String.mk [st.ch]), line := (read_char st).line,
         column := ((read_char st).column : Int),
         position := ((read_char st).position : Int) }, read_char st) := by
  delta next_token_core
  rw [if_neg n1, if_pos c2, if_neg p]

theorem core_eq_greater_equal (st : LexState) (n1 : ¬ st.ch = '=') (n2 : ¬ st.ch = '!')
    (c3 : st.ch = '>') (p : peek_char st = '=') :
    next_token_core st =
      ({ token_type := .GREATER_EQUAL, value := .vStr ">=", line := (read_char st).line,
         column := ((read_char st).column : Int) - 1,
         position := ((read_char st).position : Int) - 1 }, read_char st) := by
  delta next_token_core
  rw [if_neg n1, if_neg n2, if_pos c3, if_pos p]

theorem core_eq_greater (st : LexState) (n1 : ¬ st.ch = '=') (n2 : ¬ st.ch = '!')
    (c3 : st.ch = '>') (p : ¬ peek_char st = '=') :
    next_token_core st =
      ({ token_type := .GREATER, value := .vStr ">", line := st.line,
         column := (st.column : Int), position := (st.position : Int) }, st) := by
  delta next_token_core
  rw [if_neg n1, if_neg n2, if_pos c3, if_neg p]

theorem core_eq_less_equal (st : LexState) (n1 : ¬ st.ch = '=') (n2 : ¬ st.ch = '!')
    (n3 : ¬ st.ch = '>') (c4 : st.ch = '<') (p : peek_char st = '=') :
    next_token_core st =
      ({ token_type := .LESS_EQUAL, value := .vStr "<=", line := (read_char st).line,
         column := ((read_char st).column : Int) - 1,
         position := ((read_char st).position : Int) - 1 }, read_char st) := by
  delta next_token_core
  rw [if_neg n1, if_neg n2, if_neg n3, if_pos c4, if_pos p]

theorem core_eq_less (st : LexState) (n1 : ¬ st.ch = '=') (n2 : ¬ st.ch = '!')
    (n3 : ¬ st.ch = '>') (c4 : st.ch = '<') (p : ¬ peek_char st = '=') :
    next_token_core st =
      ({ token_type := .LESS, value := .vStr "<", line := st.line,
         column := (st.column : Int), position := (st.position : Int) }, st) := by
  delta next_token_core
  rw [if_neg n1, if_neg n2, if_neg n3, if_pos c4, if_neg p]

theorem core_eq_lbrace (st : LexState) (n1 : ¬ st.ch = '=') (n2 : ¬ st.ch = '!')
    (n3 : ¬ st.ch = '>') (n4 : ¬ st.ch = '<') (c5 : st.ch = '\x7b') :
    next_token_core st =
      ({ token_type := .LEFT_BRACE, value := .vStr "\x7b", line := st.line,
         column := (st.column : Int), position := (st.position : Int) }, st) := by
  delta next_token_core
  rw [if_neg n1, if_neg n2, if_neg n3, if_neg n4, if_pos c5]

theorem core_eq_rbrace (st : LexState) (n1 : ¬ st.ch = '=') (n2 : ¬ st.ch = '!')
    (n3 : ¬ st.ch = '>') (n4 : ¬ st.ch = '<') (n5 : ¬ st.ch = '\x7b') (c6 : st.ch = '\x7d') :
    next_token_core st =
      ({ token_type := .RIGHT_BRACE, value := .vStr "\x7d", line := st.line,
         column := (st.column : Int), position := (st.position : Int) }, st) := by
  delta next_token_core
  rw [if_neg n1, if_neg n2, if_neg n3, if_neg n4, if_neg n5, if_pos c6]

theorem core_eq_lparen (st : LexState) (n1 : ¬ st.ch = '=') (n2 : ¬ st.ch = '!')
    (n3 : ¬ st.ch = '>') (n4 : ¬ st.ch = '<') (n5 : ¬ st.ch = '\x7b') (n6 : ¬ st.ch = '\x7d')
    (c7 : st.ch = '(') :
    next_token_core st =
      ({ token_type := .LEFT_PAREN, value := .vStr "(", line := st.line,
         column := (st.column : Int), position := (st.position : Int) }, st) := by
  delta next_token_core
  rw [if_neg n1, if_neg n2, if_neg n3, if_neg n4, if_neg n5, if_neg n6, if_pos c7]

theorem core_eq_rparen (st : LexState) (n1 : ¬ st.ch = '=') (n2 : ¬ st.ch = '!')
    (n3 : ¬ st.ch = '>') (n4 : ¬ st.ch = '<') (n5 : ¬ st.ch = '\x7b') (n6 : ¬ st.ch = '\x7d')
    (n7 : ¬ st.ch = '(') (c8 : st.ch = ')') :
    next_token_core st =
      ({ token_type := .RIGHT_PAREN, value := .vStr ")", line := st.line,
         column := (st.column : Int), position := (st.position : Int) }, st) := by
  delta next_token_core
  rw [if_neg n1, if_neg n2, if_neg n3, if_neg n4, if_neg n5, if_neg n6, if_neg n7, if_pos c8]

theorem core_eq_comma (st : LexState) (n1 : ¬ st.ch = '=') (n2 : ¬ st.ch = '!')
    (n3 : ¬ st.ch = '>') (n4 : ¬ st.ch = '<') (n5 : ¬ st.ch = '\x7b') (n6 : ¬ st.ch = '\x7d')
    (n7 : ¬ st.ch = '(') (n8 : ¬ st.ch = ')') (c9 : st.ch = ',') :
    next_token_core st =
      ({ token_type := .COMMA, value := .vStr ",", line := st.line,
         column := (st.column : Int), position := (st.position : Int) }, st) := by
  delta next_token_core
  rw [if_neg n1, if_neg n2, if_neg n3, if_neg n4, if_neg n5, if_neg n6, if_neg n7, if_neg n8,
    if_pos c9]

theorem core_eq_dot (st : LexState) (n1 : ¬ st.ch = '=') (n2 : ¬ st.ch = '!')
    (n3 : ¬ st.ch = '>') (n4 : ¬ st.ch = '<') (n5 : ¬ st.ch = '\x7b') (n6 : ¬ st.ch = '\x7d')
    (n7 : ¬ st.ch = '(') (n8 : ¬ st.ch = ')') (n9 : ¬ st.ch = ',') (c10 : st.ch = '.') :
    next_token_core st =
      ({ token_type := .DOT, value := .vStr ".", line := st.line,
         column := (st.column : Int), position := (st.position : Int) }, st) := by
  delta next_token_core
  rw [if_neg n1, if_neg n2, if_neg n3, if_neg n4, if_neg n5, if_neg n6, if_neg n7, if_neg n8,
    if_neg n9, if_pos c10]

theorem core_eq_colon (st : LexState) (n1 : ¬ st.ch = '=') (n2 : ¬ st.ch = '!')
    (n3 : ¬ st.ch = '>') (n4 : ¬ st.ch = '<') (n5 : ¬ st.ch = '\x7b') (n6 : ¬ st.ch = '\x7d')
    (n7 : ¬ st.ch = '(') (n8 : ¬ st.ch = ')') (n9 : ¬ st.ch = ',') (n10 : ¬ st.ch = '.')
    (c11 : st.ch = ':') :
    next_token_core st =
      ({ token_type := .COLON, value := .vStr ":", line := st.line,
         column := (st.column : Int), position := (st.position : Int) }, st) := by
  delta next_token_core
  rw [if_neg n1, if_neg n2, if_neg n3, if_neg n4, if_neg n5, if_neg n6, if_neg n7, if_neg n8,
    if_neg n9, if_neg n10, if_pos c11]

theorem core_eq_eof (st : LexState) (n1 : ¬ st.ch = '=') (n2 : ¬ st.ch = '!')
    (n3 : ¬ st.ch = '>') (n4 : ¬ st.ch = '<') (n5 : ¬ st.ch = '\x7b') (n6 : ¬ st.ch = '\x7d')
    (n7 : ¬ st.ch = '(') (n8 : ¬ st.ch = ')') (n9 : ¬ st.ch = ',') (n10 : ¬ st.ch = '.')
    (n11 : ¬ st.ch = ':') (c12 : st.ch = '\x00') :
    next_token_core st =
      ({ token_type := .EOF, value := .vNone, line := st.line,
         column := (st.column : Int), position := (st.position : Int) }, st) := by
  delta next_token_core
  rw [if_neg n1, if_neg n2, if_neg n3, if_neg n4, if_neg n5, if_neg n6, if_neg n7, if_neg n8,
    if_neg n9, if_neg n10, if_neg n11, if_pos c12]

theorem core_eq_identifier (st : LexState) (n1 : ¬ st.ch = '=') (n2 : ¬ st.ch = '!')
    (n3 : ¬ st.ch = '>') (n4 : ¬ st.ch = '<') (n5 : ¬ st.ch = '\x7b') (n6 : ¬ st.ch = '\x7d')
    (n7 : ¬ st.ch = '(') (n8 : ¬ st.ch = ')') (n9 : ¬ st.ch = ',') (n10 : ¬ st.ch = '.')
    (n11 : ¬ st.ch = ':') (n12 : ¬ st.ch = '\x00') (c13 : is_letter st.ch = true) :
    next_token_core st =
      ({ token_type := lookup_identifier (read_identifier st).1,
         value := .vStr (read_identifier st).1, line := (read_identifier st).2.line,
         column := ((read_identifier st).2.column : Int) - (read_identifier st).1.length,
         position := ((read_identifier st).2.position : Int) - (read_identifier st).1.length },
       (read_identifier st).2) := by
  delta next_token_core
  rw [if_neg n1, if_neg n2, if_neg n3, if_neg n4, if_neg n5, if_neg n6, if_neg n7, if_neg n8,
    if_neg n9, if_neg n10, if_neg n11, if_neg n12, if_pos c13]

theorem core_eq_quote (st : LexState) (n1 : ¬ st.ch = '=') (n2 : ¬ st.ch = '!')
    (n3 : ¬ st.ch = '>') (n4 : ¬ st.ch = '<') (n5 : ¬ st.ch = '\x7b') (n6 : ¬ st.ch = '\x7d')
    (n7 : ¬ st.ch = '(') (n8 : ¬ st.ch = ')') (n9 : ¬ st.ch = ',') (n10 : ¬ st.ch = '.')
    (n11 : ¬ st.ch = ':') (n12 : ¬ st.ch = '\x00') (n13 : ¬ is_letter st.ch = true)
    (c14 : st.ch = '\x22' ∨ st.ch = '\x27') :
    next_token_core st =
      ({ token_type := .ILLEGAL, value := .vStr (String.mk [st.ch]), line := (read_char st).line,
         column := ((read_char st).column : Int),
         position := ((read_char st).position : Int) }, read_char st) := by
  delta next_token_core
  rw [if_neg n1, if_neg n2, if_neg n3, if_neg n4, if_neg n5, if_neg n6, if_neg n7, if_neg n8,
    if_neg n9, if_neg n10, if_neg n11, if_neg n12, if_neg n13, if_pos c14]

theorem core_eq_digit (st : LexState) (n1 : ¬ st.ch = '=') (n2 : ¬ st.ch = '!')
    (n3 : ¬ st.ch = '>') (n4 : ¬ st.ch = '<') (n5 : ¬ st.ch = '\x7b') (n6 : ¬ st.ch = '\x7d')
    (n7 : ¬ st.ch = '(') (n8 : ¬ st.ch = ')') (n9 : ¬ st.ch = ',') (n10 : ¬ st.ch = '.')
    (n11 : ¬ st.ch = ':') (n12 : ¬ st.ch = '\x00') (n13 : ¬ is_letter st.ch = true)
    (n14 : ¬ (st.ch = '\x22' ∨ st.ch = '\x27')) (c15 : pyIsDigit st.ch = true) :
    next_token_core st =
      ({ token_type := .NUMBER, value := .vInt (read_number st).1,
         line := (read_number st).2.line,
         column := ((read_number st).2.column : Int) - py_str_len (read_number st).1,
         position := ((read_number st).2.position : Int) - py_str_len (read_number st).1 },
       (read_number st).2) := by
  delta next_token_core
  rw [if_neg n1, if_neg n2, if_neg n3, if_neg n4, if_neg n5, if_neg n6, if_neg n7, if_neg n8,
    if_neg n9, if_neg n10, if_neg n11, if_neg n12, if_neg n13, if_neg n14, if_pos c15]

theorem core_eq_other (st : LexState) (n1 : ¬ st.ch = '=') (n2 : ¬ st.ch = '!')
    (n3 : ¬ st.ch = '>') (n4 : ¬ st.ch = '<') (n5 : ¬ st.ch = '\x7b') (n6 : ¬ st.ch = '\x7d')
    (n7 : ¬ st.ch = '(') (n8 : ¬ st.ch = ')') (n9 : ¬ st.ch = ',') (n10 : ¬ st.ch = '.')
    (n11 : ¬ st.ch = ':') (n12 : ¬ st.ch = '\x00') (n13 : ¬ is_letter st.ch = true)
    (n14 : ¬ (st.ch = '\x22' ∨ st.ch = '\x27')) (n15 : ¬ pyIsDigit st.ch = true) :
    next_token_core st =
      ({ token_type := .ILLEGAL, value := .vStr (String.mk [st.ch]), line := (read_char st).line,
         column := ((read_char st).column : Int),
         position := ((read_char st).position : Int) }, read_char st) := by
  delta next_token_core
  rw [if_neg n1, if_neg n2, if_neg n3, if_neg n4, if_neg n5, if_neg n6, if_neg n7, if_neg n8,
    if_neg n9, if_neg n10, if_neg n11, if_neg n12, if_neg n13, if_neg n14, if_neg n15]

/-- Combined per-call properties of the dispatch chain on a well-formed
state: invariant preservation, unchanged input, cursor monotonicity, token
line/offset sandwich bounds, the end-of-input/EOF connection, and the
kind/payload discipline. -/
theorem next_token_core_props (st : LexState) (hwf : lex_wf st) :
    lex_wf (next_token_core st).2 ∧
    (next_token_core st).2.input = st.input ∧
    st.position ≤ (next_token_core st).2.position ∧
    st.line ≤ (next_token_core st).1.line ∧
    (next_token_core st).1.line = (next_token_core st).2.line ∧
    (st.position : Int) ≤ (next_token_core st).1.position ∧
    (next_token_core st).1.position ≤ ((next_token_core st).2.position : Int) ∧
    (st.ch = '\x00' → (next_token_core st).1.token_type = TokenType.EOF) ∧
    payload_ok_at st (next_token_core st).1 := by
  by_cases c1 : st.ch = '='
  · by_cases p : peek_char st = '='
    · rw [core_eq_equal st c1 p]
      refine ⟨lex_wf_read_char st, read_char_input st, ?_, read_char_line_le st, rfl, ?_, ?_,
        fun h0 => by rw [h0] at c1; exact absurd c1 (by decide),
        ⟨fun h => by simp [is_keyword, is_symbol] at h, fun h => by simp [is_keyword, is_symbol] at h, fun _ => rfl,
         fun h => by simp [is_keyword, is_symbol] at h, fun h => by simp [is_keyword, is_symbol] at h⟩⟩
      · rw [read_char_position, hwf.1]; omega
      · show (st.position : Int) ≤ ((read_char st).position : Int) - 1
        rw [read_char_position, hwf.1]; push_cast; omega
      · show ((read_char st).position : Int) - 1 ≤ ((read_char st).position : Int)
        omega
    · rw [core_eq_assignment st c1 p]
      exact ⟨hwf, rfl, le_refl _, le_refl _, rfl, le_refl _, le_refl _,
        fun h0 => by rw [h0] at c1; exact absurd c1 (by decide),
        ⟨fun h => by simp [is_keyword, is_symbol] at h, fun h => by simp [is_keyword, is_symbol] at h, fun _ => rfl,
         fun h => by simp [is_keyword, is_symbol] at h, fun h => by simp [is_keyword, is_symbol] at h⟩⟩
  by_cases c2 : st.ch = '!'
  · by_cases p : peek_char st = '='
    · rw [core_eq_not_equal st c1 c2 p]
      refine ⟨lex_wf_read_char st, read_char_input st, ?_, read_char_line_le st, rfl, ?_, ?_,
        fun h0 => by rw [h0] at c2; exact absurd c2 (by decide),
        ⟨fun h => by simp [is_keyword, is_symbol] at h, fun h => by simp [is_keyword, is_symbol] at h, fun _ => rfl,
         fun h => by simp [is_keyword, is_symbol] at h, fun h => by simp [is_keyword, is_symbol] at h⟩⟩
      · rw [read_char_position, hwf.1]; omega
      · show (st.position : Int) ≤ ((read_char st).position : Int) - 1
        rw [read_char_position, hwf.1]; push_cast; omega
      · show ((read_char st).position : Int) - 1 ≤ ((read_char st).position : Int)
        omega
    · rw [core_eq_bang st c1 c2 p]
      refine ⟨lex_wf_read_char st, read_char_input st, ?_, read_char_line_le st, rfl, ?_,
        le_refl _,
        fun h0 => by rw [h0] at c2; exact absurd c2 (by decide),
        ⟨fun h => by simp [is_keyword, is_symbol] at h, fun h => by simp [is_keyword, is_symbol] at h,
         fun h => by simp [is_keyword, is_symbol] at h, fun _ => rfl, fun h => by simp [is_keyword, is_symbol] at h⟩⟩
      · rw [read_char_position, hwf.1]; omega
      · show (st.position : Int) ≤ ((read_char st).position : Int)
        rw [read_char_position, hwf.1]; push_cast; omega
  by_cases c3 : st.ch = '>'
  · by_cases p : peek_char st = '='
    · rw [core_eq_greater_equal st c1 c2 c3 p]
      refine ⟨lex_wf_read_char st, read_char_input st, ?_, read_char_line_le st, rfl, ?_, ?_,
        fun h0 => by rw [h0] at c3; exact absurd c3 (by decide),
        ⟨fun h => by simp [is_keyword, is_symbol] at h, fun h => by simp [is_keyword, is_symbol] at h, fun _ => rfl,
         fun h => by simp [is_keyword, is_symbol] at h, fun h => by simp [is_keyword, is_symbol] at h⟩⟩
      · rw [read_char_position, hwf.1]; omega
      · show (st.position : Int) ≤ ((read_char st).position : Int) - 1
        rw [read_char_position, hwf.1]; push_cast; omega
      · show ((read_char st).position : Int) - 1 ≤ ((read_char st).position : Int)
        omega
    · rw [core_eq_greater st c1 c2 c3 p]
      exact ⟨hwf, rfl, le_refl _, le_refl _, rfl, le_refl _, le_refl _,
        fun h0 => by rw [h0] at c3; exact absurd c3 (by decide),
        ⟨fun h => by simp [is_keyword, is_symbol] at h, fun h => by simp [is_keyword, is_symbol] at h, fun _ => rfl,
         fun h => by simp [is_keyword, is_symbol] at h, fun h => by simp [is_keyword, is_symbol] at h⟩⟩
  by_cases c4 : st.ch = '<'
  · by_cases p : peek_char st = '='
    · rw [core_eq_less_equal st c1 c2 c3 c4 p]
      refine ⟨lex_wf_read_char st, read_char_input st, ?_, read_char_line_le st, rfl, ?_, ?_,
        fun h0 => by rw [h0] at c4; exact absurd c4 (by decide),
        ⟨fun h => by simp [is_keyword, is_symbol] at h, fun h => by simp [is_keyword, is_symbol] at h, fun _ => rfl,
         fun h => by simp [is_keyword, is_symbol] at h, fun h => by simp [is_keyword, is_symbol] at h⟩⟩
      · rw [read_char_position, hwf.1]; omega
      · show (st.position : Int) ≤ ((read_char st).position : Int) - 1
        rw [read_char_position, hwf.1]; push_cast; omega
      · show ((read_char st).position : Int) - 1 ≤ ((read_char st).position : Int)
        omega
    · rw [core_eq_less st c1 c2 c3 c4 p]
      exact ⟨hwf, rfl, le_refl _, le_refl _, rfl, le_refl _, le_refl _,
        fun h0 => by rw [h0] at c4; exact absurd c4 (by decide),
        ⟨fun h => by simp [is_keyword, is_symbol] at h, fun h => by simp [is_keyword, is_symbol] at h, fun _ => rfl,
         fun h => by simp [is_keyword, is_symbol] at h, fun h => by simp [is_keyword, is_symbol] at h⟩⟩
  by_cases c5 : st.ch = '\x7b'
  · rw [core_eq_lbrace st c1 c2 c3 c4 c5]
    exact ⟨hwf, rfl, le_refl _, le_refl _, rfl, le_refl _, le_refl _,
      fun h0 => by rw [h0] at c5; exact absurd c5 (by decide),
      ⟨fun h => by simp [is_keyword, is_symbol] at h, fun h => by simp [is_keyword, is_symbol] at h, fun _ => rfl,
       fun h => by simp [is_keyword, is_symbol] at h, fun h => by simp [is_keyword, is_symbol] at h⟩⟩
  by_cases c6 : st.ch = '\x7d'
  · rw [core_eq_rbrace st c1 c2 c3 c4 c5 c6]
    exact ⟨hwf, rfl, le_refl _, le_refl _, rfl, le_refl _, le_refl _,
      fun h0 => by rw [h0] at c6; exact absurd c6 (by decide),
      ⟨fun h => by simp [is_keyword, is_symbol] at h, fun h => by simp [is_keyword, is_symbol] at h, fun _ => rfl,
       fun h => by simp [is_keyword, is_symbol] at h, fun h => by simp [is_keyword, is_symbol] at h⟩⟩
  by_cases c7 : st.ch = '('
  · rw [core_eq_lparen st c1 c2 c3 c4 c5 c6 c7]
    exact ⟨hwf, rfl, le_refl _, le_refl _, rfl, le_refl _, le_refl _,
      fun h0 => by rw [h0] at c7; exact absurd c7 (by decide),
      ⟨fun h => by simp [is_keyword, is_symbol] at h, fun h => by simp [is_keyword, is_symbol] at h, fun _ => rfl,
       fun h => by simp [is_keyword, is_symbol] at h, fun h => by simp [is_keyword, is_symbol] at h⟩⟩
  by_cases c8 : st.ch = ')'
  · rw [core_eq_rparen st c1 c2 c3 c4 c5 c6 c7 c8]
    exact ⟨hwf, rfl, le_refl _, le_refl _, rfl, le_refl _, le_refl _,
      fun h0 => by rw [h0] at c8; exact absurd c8 (by decide),
      ⟨fun h => by simp [is_keyword, is_symbol] at h, fun h => by simp [is_keyword, is_symbol] at h, fun _ => rfl,
       fun h => by simp [is_keyword, is_symbol] at h, fun h => by simp [is_keyword, is_symbol] at h⟩⟩
  by_cases c9 : st.ch = ','
  · rw [core_eq_comma st c1 c2 c3 c4 c5 c6 c7 c8 c9]
    exact ⟨hwf, rfl, le_refl _, le_refl _, rfl, le_refl _, le_refl _,
      fun h0 => by rw [h0] at c9; exact absurd c9 (by decide),
      ⟨fun h => by simp [is_keyword, is_symbol] at h, fun h => by simp [is_keyword, is_symbol] at h, fun _ => rfl,
       fun h => by simp [is_keyword, is_symbol] at h, fun h => by simp [is_keyword, is_symbol] at h⟩⟩
  by_cases c10 : st.ch = '.'
  · rw [core_eq_dot st c1 c2 c3 c4 c5 c6 c7 c8 c9 c10]
    exact ⟨hwf, rfl, le_refl _, le_refl _, rfl, le_refl _, le_refl _,
      fun h0 => by rw [h0] at c10; exact absurd c10 (by decide),
      ⟨fun h => by simp [is_keyword, is_symbol] at h, fun h => by simp [is_keyword, is_symbol] at h, fun _ => rfl,
       fun h => by simp [is_keyword, is_symbol] at h, fun h => by simp [is_keyword, is_symbol] at h⟩⟩
  by_cases c11 : st.ch = ':'
  · rw [core_eq_colon st c1 c2 c3 c4 c5 c6 c7 c8 c9 c10 c11]
    exact ⟨hwf, rfl, le_refl _, le_refl _, rfl, le_refl _, le_refl _,
      fun h0 => by rw [h0] at c11; exact absurd c11 (by decide),
      ⟨fun h => by simp [is_keyword, is_symbol] at h, fun h => by simp [is_keyword, is_symbol] at h, fun _ => rfl,
       fun h => by simp [is_keyword, is_symbol] at h, fun h => by simp [is_keyword, is_symbol] at h⟩⟩
  by_cases c12 : st.ch = '\x00'
  · rw [core_eq_eof st c1 c2 c3 c4 c5 c6 c7 c8 c9 c10 c11 c12]
    exact ⟨hwf, rfl, le_refl _, le_refl _, rfl, le_refl _, le_refl _, fun _ => rfl,
      ⟨fun h => by simp [is_keyword, is_symbol] at h, fun h => by simp [is_keyword, is_symbol] at h,
       fun h => by simp [is_keyword, is_symbol] at h, fun h => by simp [is_keyword, is_symbol] at h, fun _ => rfl⟩⟩
  by_cases c13 : is_letter st.ch = true
  · rw [core_eq_identifier st c1 c2 c3 c4 c5 c6 c7 c8 c9 c10 c11 c12 c13]
    obtain ⟨hv, hw2, hin, hps, hln⟩ := read_identifier_spec st hwf
    obtain ⟨hsh1, hsh2, hsh3, hsh4, hsh5⟩ := lookup_identifier_shape (read_identifier st).1
    refine ⟨hw2, hin, ?_, hln, rfl, ?_, ?_,
      fun h0 => by rw [h0] at c13; exact absurd c13 (by decide),
      ⟨fun _ => rfl, fun h => absurd h hsh2,
       fun h => absurd (h.symm.trans hsh3) (by decide), fun h => absurd h hsh4,
       fun h => absurd h hsh5⟩⟩
    · rw [hps]; omega
    · show (st.position : Int) ≤
        ((read_identifier st).2.position : Int) - ((read_identifier st).1.length : Int)
      rw [hps, hv, String.length_mk]; push_cast; omega
    · show ((read_identifier st).2.position : Int) - ((read_identifier st).1.length : Int) ≤
        ((read_identifier st).2.position : Int)
      omega
  by_cases c14 : st.ch = '\x22' ∨ st.ch = '\x27'
  · rw [core_eq_quote st c1 c2 c3 c4 c5 c6 c7 c8 c9 c10 c11 c12 c13 c14]
    refine ⟨lex_wf_read_char st, read_char_input st, ?_, read_char_line_le st, rfl, ?_,
      le_refl _,
      fun h0 => by rw [h0] at c14; exact absurd c14 (by decide),
      ⟨fun h => by simp [is_keyword, is_symbol] at h, fun h => by simp [is_keyword, is_symbol] at h,
       fun h => by simp [is_keyword, is_symbol] at h, fun _ => rfl, fun h => by simp [is_keyword, is_symbol] at h⟩⟩
    · rw [read_char_position, hwf.1]; omega
    · show (st.position : Int) ≤ ((read_char st).position : Int)
      rw [read_char_position, hwf.1]; push_cast; omega
  by_cases c15 : pyIsDigit st.ch = true
  · rw [core_eq_digit st c1 c2 c3 c4 c5 c6 c7 c8 c9 c10 c11 c12 c13 c14 c15]
    obtain ⟨hv, hw2, hin, hps, hln⟩ := read_number_spec st hwf
    have hpos : st.position < st.input.length :=
      pos_lt_of_ch_ne_null hwf (fun h => by rw [h] at c15; exact absurd c15 (by decide))
    have hrun : (st.input.drop st.position).takeWhile pyIsDigit =
        st.ch :: (st.input.drop (st.position + 1)).takeWhile pyIsDigit := by
      rw [drop_cons_of_wf hwf hpos, List.takeWhile_cons_of_pos c15]
    have hL1 : 1 ≤ ((st.input.drop st.position).takeWhile pyIsDigit).length := by
      rw [hrun]; simp
    have hlt : (read_number st).1 <
        10 ^ ((st.input.drop st.position).takeWhile pyIsDigit).length := by
      rw [hv]
      exact str_to_int_lt _ (fun c hc => List.mem_takeWhile_imp hc)
    have hpy : py_str_len (read_number st).1 ≤
        ((st.input.drop st.position).takeWhile pyIsDigit).length :=
      py_str_len_le (by omega) hlt
    refine ⟨hw2, hin, ?_, hln, rfl, ?_, ?_,
      fun h0 => by rw [h0] at c15; exact absurd c15 (by decide),
      ⟨fun h => by simp [is_keyword, is_symbol] at h, fun _ => rfl,
       fun h => by simp [is_keyword, is_symbol] at h, fun h => by simp [is_keyword, is_symbol] at h,
       fun h => by simp [is_keyword, is_symbol] at h⟩⟩
    · rw [hps]; omega
    · show (st.position : Int) ≤
        ((read_number st).2.position : Int) - (py_str_len (read_number st).1 : Int)
      rw [hps]; push_cast; omega
    · show ((read_number st).2.position : Int) - (py_str_len (read_number st).1 : Int) ≤
        ((read_number st).2.position : Int)
      omega
  · rw [core_eq_other st c1 c2 c3 c4 c5 c6 c7 c8 c9 c10 c11 c12 c13 c14 c15]
    refine ⟨lex_wf_read_char st, read_char_input st, ?_, read_char_line_le st, rfl, ?_,
      le_refl _, fun h0 => absurd h0 c12,
      ⟨fun h => by simp [is_keyword, is_symbol] at h, fun h => by simp [is_keyword, is_symbol] at h,
       fun h => by simp [is_keyword, is_symbol] at h, fun _ => rfl, fun h => by simp [is_keyword, is_symbol] at h⟩⟩
    · rw [read_char_position, hwf.1]; omega
    · show (st.position : Int) ≤ ((read_char st).position : Int)
      rw [read_char_position, hwf.1]; push_cast; omega

/-- `next_token` unfolded: the dispatch result followed by the trailing
`_read_char`. -/
theorem next_token_eq (st0 : LexState) :
    next_token st0 = ((next_token_core (skip_whitespace st0)).1,
      read_char (next_token_core (skip_whitespace st0)).2) := rfl

/-- Per-call properties of `next_token` on a well-formed state. The strict
`position` increase reflects the unconditional trailing `_read_char`. -/
theorem next_token_props (st : LexState) (hwf : lex_wf st) :
    lex_wf (next_token st).2 ∧
    (next_token st).2.input = st.input ∧
    st.position < (next_token st).2.position ∧
    st.line ≤ (next_token st).1.line ∧
    (next_token st).1.line ≤ (next_token st).2.line ∧
    (st.position : Int) ≤ (next_token st).1.position ∧
    (next_token st).1.position ≤ ((next_token st).2.position : Int) ∧
    (st.input.length ≤ st.position → (next_token st).1.token_type = TokenType.EOF) ∧
    payload_ok_at (skip_whitespace st) (next_token st).1 := by
  obtain ⟨hsw, hsi, hsp, hss, hsl⟩ := skip_whitespace_spec st hwf
  obtain ⟨h1, h2, h3, h4, h5, h6, h7, h8, h9⟩ := next_token_core_props (skip_whitespace st) hsw
  rw [next_token_eq st]
  refine ⟨lex_wf_read_char _, ?_, ?_, le_trans hsl h4, ?_, ?_, ?_, ?_, h9⟩
  · show (read_char (next_token_core (skip_whitespace st)).2).input = st.input
    rw [read_char_input, h2, hsi]
  · show st.position < (read_char (next_token_core (skip_whitespace st)).2).position
    rw [read_char_position, h1.1]
    omega
  · show (next_token_core (skip_whitespace st)).1.line ≤
      (read_char (next_token_core (skip_whitespace st)).2).line
    rw [h5]
    exact read_char_line_le _
  · show (st.position : Int) ≤ (next_token_core (skip_whitespace st)).1.position
    have hle : st.position ≤ (skip_whitespace st).position := by omega
    exact le_trans (by exact_mod_cast hle) h6
  · show (next_token_core (skip_whitespace st)).1.position ≤
      ((read_char (next_token_core (skip_whitespace st)).2).position : Int)
    rw [read_char_position, h1.1]
    push_cast at h7 ⊢
    omega
  · intro hlen
    apply h8
    rw [hsw.2, hsi]
    exact char_at_of_ge (by omega)


/-!
## `tokenize_all`: termination, the EOF postcondition, and monotonicity
-/


/-- Master induction for the `tokenize_all` loop on a well-formed state with
enough fuel: it succeeds, the produced list is a run of non-`EOF` tokens
closed by exactly one final `EOF`, consecutive tokens are `token_le`-ordered,
and all tokens sit at or after the starting line/offset. -/
theorem tokenize_all_aux_spec :
    ∀ (fuel : Nat) (st : LexState), lex_wf st → 1 ≤ fuel →
      st.input.length + 1 ≤ st.position + fuel →
      ∃ toks, tokenize_all_aux fuel st = some toks ∧
        (∃ front last, toks = front ++ [last] ∧ last.token_type = TokenType.EOF ∧
          ∀ u ∈ front, u.token_type ≠ TokenType.EOF) ∧
        List.Chain' token_le toks ∧
        (∀ t ∈ toks, st.line ≤ t.line ∧ (st.position : Int) ≤ t.position ∧ payload_ok t) := by
  intro fuel
  induction fuel with
  | zero => intro st _ h1 _; exact absurd h1 (by omega)
  | succ n ih =>
    intro st hwf _ hbound
    obtain ⟨p1, p2, p3, p4, p5, p6, p7, p8, p9⟩ := next_token_props st hwf
    rw [tokenize_all_aux]
    by_cases heof : (next_token st).1.token_type = TokenType.EOF
    · rw [if_pos heof]
      refine ⟨[(next_token st).1], rfl, ⟨[], (next_token st).1, rfl, heof, by simp⟩, ?_, ?_⟩
      · simp [List.chain'_singleton]
      · intro t ht
        rw [List.mem_singleton] at ht
        rw [ht]
        exact ⟨p4, p6, payload_ok_of_at _ _ p9⟩
    · rw [if_neg heof]
      have h1n : 1 ≤ n := by
        by_contra h
        have : st.input.length ≤ st.position := by omega
        exact heof (p8 this)
      obtain ⟨toks, ht, ⟨front, last, hsplit, hlast, hfront⟩, hchain, hmem⟩ :=
        ih (next_token st).2 p1 h1n (by rw [p2]; omega)
      refine ⟨(next_token st).1 :: toks, ?_,
        ⟨(next_token st).1 :: front, last, by rw [hsplit]; rfl, hlast, ?_⟩, ?_, ?_⟩
      · rw [ht]; rfl
      · intro u hu
        rcases List.mem_cons.mp hu with h | h
        · rw [h]; exact heof
        · exact hfront u h
      · rw [List.chain'_cons']
        refine ⟨?_, hchain⟩
        intro y hy
        have hymem := List.mem_of_mem_head? hy
        obtain ⟨hyl, hyp, _⟩ := hmem y hymem
        exact ⟨le_trans p5 hyl, le_trans p7 hyp⟩
      · intro t htm
        rcases List.mem_cons.mp htm with h | h
        · rw [h]; exact ⟨p4, p6, payload_ok_of_at _ _ p9⟩
        · obtain ⟨hyl, hyp, hpl⟩ := hmem t h
          refine ⟨le_trans (le_trans p4 p5) hyl, le_trans ?_ hyp, hpl⟩
          exact_mod_cast le_of_lt p3

/-- `tokenize_all` always succeeds, and its output is a non-`EOF` run closed
by exactly one final `EOF`, with `line`/offset monotone. -/
theorem tokenize_all_spec (input : String) :
    ∃ toks, tokenize_all input = some toks ∧
      (∃ front last, toks = front ++ [last] ∧ last.token_type = TokenType.EOF ∧
        ∀ u ∈ front, u.token_type ≠ TokenType.EOF) ∧
      List.Chain' token_le toks ∧
      (∀ t ∈ toks, payload_ok t) := by
  obtain ⟨toks, h1, h2, h3, h4⟩ :=
    tokenize_all_aux_spec (input.data.length + 2) (mkLexer input) (lex_wf_mkLexer input)
      (by omega) (by simp [mkLexer])
  exact ⟨toks, h1, h2, h3, fun t ht => (h4 t ht).2.2⟩

/-!
## Character-class facts and further step lemmas
-/

/-- A letter differs from any concrete non-letter character. -/
theorem letter_ne_char {c d : Char} (h : is_letter c = true) (hd : is_letter d = false) :
    c ≠ d := by
  intro he
  rw [he] at h
  exact absurd (h.symm.trans hd) (by decide)

/-- A digit differs from any concrete non-digit character. -/
theorem digit_ne_char {c d : Char} (h : pyIsDigit c = true) (hd : pyIsDigit d = false) :
    c ≠ d := by
  intro he
  rw [he] at h
  exact absurd (h.symm.trans hd) (by decide)

/-- Letters are not Python whitespace. -/
theorem not_space_of_is_letter {c : Char} (h : is_letter c = true) : pyIsSpace c = false := by
  cases hs : pyIsSpace c with
  | false => rfl
  | true =>
    exfalso
    have hs' : ((((((((c = ' ' ∨ c = '\t') ∨ c = '\n') ∨ c = '\r') ∨ c = '\x0b') ∨
        c = '\x0c') ∨ c = '\x1c') ∨ c = '\x1d') ∨ c = '\x1e') ∨ c = '\x1f' := by
      simpa [pyIsSpace] using hs
    rcases hs' with ((((((((he | he) | he) | he) | he) | he) | he) | he) | he) | he <;>
      (rw [he] at h; exact absurd h (by decide))

/-- Digits are not Python whitespace. -/
theorem not_space_of_digit {c : Char} (h : pyIsDigit c = true) : pyIsSpace c = false := by
  cases hs : pyIsSpace c with
  | false => rfl
  | true =>
    exfalso
    have hs' : ((((((((c = ' ' ∨ c = '\t') ∨ c = '\n') ∨ c = '\r') ∨ c = '\x0b') ∨
        c = '\x0c') ∨ c = '\x1c') ∨ c = '\x1d') ∨ c = '\x1e') ∨ c = '\x1f' := by
      simpa [pyIsSpace] using hs
    rcases hs' with ((((((((he | he) | he) | he) | he) | he) | he) | he) | he) | he <;>
      (rw [he] at h; exact absurd h (by decide))

/-- The code-point ranges behind `is_letter`. -/
theorem is_letter_toNat {c : Char} (h : is_letter c = true) :
    (65 ≤ c.toNat ∧ c.toNat ≤ 90) ∨ (97 ≤ c.toNat ∧ c.toNat ≤ 122) ∨ c = '_' := by
  rw [is_letter, Bool.or_eq_true] at h
  rcases h with h | h
  · rw [Char.isAlpha, Bool.or_eq_true] at h
    rcases h with h | h
    · rw [Char.isUpper, Bool.and_eq_true] at h
      exact Or.inl ⟨UInt32.le_toNat_of_le (by norm_num) (of_decide_eq_true h.1),
        UInt32.toNat_le_of_le (by norm_num) (of_decide_eq_true h.2)⟩
    · rw [Char.isLower, Bool.and_eq_true] at h
      exact Or.inr (Or.inl ⟨UInt32.le_toNat_of_le (by norm_num) (of_decide_eq_true h.1),
        UInt32.toNat_le_of_le (by norm_num) (of_decide_eq_true h.2)⟩)
  · exact Or.inr (Or.inr (of_decide_eq_true h))

/-- Digits are not letters. -/
theorem not_letter_of_digit {c : Char} (h : pyIsDigit c = true) : is_letter c = false := by
  cases hb : is_letter c with
  | false => rfl
  | true =>
    exfalso
    obtain ⟨h48, h57⟩ := pyIsDigit_toNat h
    rcases is_letter_toNat hb with ⟨a, b⟩ | ⟨a, b⟩ | hu
    · omega
    · omega
    · rw [hu] at h; exact absurd h (by decide)

/-- `_skip_whitespace` is the identity when the current character is not
whitespace. -/
theorem skip_whitespace_not_space {st : LexState} (h : pyIsSpace st.ch = false) :
    skip_whitespace st = st := by
  rw [skip_whitespace, skip_whitespace_aux, if_neg (by simp [h])]

/-- Stepping the lexer preserves the invariant, the input, and being at or
past the end of the buffer. -/
theorem lex_iter_inv (st : LexState) (hwf : lex_wf st) (hend : st.input.length ≤ st.position) :
    ∀ k, lex_wf (lex_iter k st) ∧ (lex_iter k st).input = st.input ∧
      (lex_iter k st).input.length ≤ (lex_iter k st).position := by
  intro k
  induction k generalizing st with
  | zero => exact ⟨hwf, rfl, hend⟩
  | succ n ih =>
    obtain ⟨p1, p2, p3, _⟩ := next_token_props st hwf
    have hend' : (next_token st).2.input.length ≤ (next_token st).2.position := by
      rw [p2]; omega
    obtain ⟨q1, q2, q3⟩ := ih (next_token st).2 p1 hend'
    exact ⟨q1, q2.trans p2, q3⟩

/-- The entity-field loop never terminates when the current token is neither
an identifier nor `}`/`EOF`: `parse_field_def` consumes nothing, so the state
repeats and every fuel bound is exhausted. -/
theorem entity_fields_loop_none :
    ∀ (fuel : Nat) (st : PState) (fields : List FieldDef),
      st.current_token.token_type ≠ TokenType.IDENTIFIER →
      st.current_token.token_type ≠ TokenType.RIGHT_BRACE →
      st.current_token.token_type ≠ TokenType.EOF →
      entity_fields_loop fuel st fields = none := by
  intro fuel
  induction fuel with
  | zero => intro st fields _ _ _; rfl
  | succ n ih =>
    intro st fields hni hnr hne
    rw [entity_fields_loop]
    have hguard : (!is_current_token .RIGHT_BRACE st && !is_at_end st) = true := by
      simp [is_current_token, is_at_end, hnr, hne]
    rw [if_pos hguard]
    have hfd : parse_field_def st = (none, st) := by
      rw [parse_field_def, if_neg (by simp [is_current_token, hni])]
    rw [hfd]
    exact ih st fields hni hnr hne

/-- Whenever `skip_until` returns, the current token is one of the requested
keywords or `EOF`. -/
theorem skip_until_mem (kws : List TokenType) :
    ∀ (fuel : Nat) (st st' : PState), skip_until kws fuel st = some st' →
      st'.current_token.token_type ∈ kws ∨ st'.current_token.token_type = TokenType.EOF := by
  intro fuel
  induction fuel with
  | zero => intro st st' h; exact absurd h (by simp [skip_until])
  | succ n ih =>
    intro st st' h
    rw [skip_until] at h
    by_cases h1 : is_at_end st = true
    · rw [if_pos h1] at h
      cases h
      right
      simpa [is_at_end] using h1
    · rw [if_neg h1] at h
      by_cases h2 : st.current_token.token_type ∈ kws
      · rw [if_pos h2] at h
        cases h
        exact Or.inl h2
      · rw [if_neg h2] at h
        exact ih _ _ h

/-!
## Claim theorems
-/

/-- C1. The claim says `parse_program` always returns a `Program` with
diagnostics, for every input. The code does not: on `entity E { 5 }` the
field loop in `parse_entity_def` sees the `NUMBER` token, `parse_field_def`
returns `None` without consuming it, and the loop repeats on an identical
state forever. Formally, the run exhausts every fuel bound. -/
theorem C1_parse_program_no_return_on_number_field :
    ∀ fuel : Nat, parse_program fuel "entity E \x7b 5 \x7d" = none := by
  intro fuel
  cases fuel with
  | zero => rfl
  | succ n =>
    have hloop := entity_fields_loop_none (n+1)
      (p_next_token (p_next_token (p_next_token (mkParser "entity E \x7b 5 \x7d")))) []
      (by decide) (by decide) (by decide)
    show program_loop (n+1) (mkParser "entity E \x7b 5 \x7d") [] = none
    rw [program_loop]
    rw [if_neg (by decide)]
    have hdef : parse_definition (n+1) (mkParser "entity E \x7b 5 \x7d") = none := by
      rw [parse_definition, if_pos (by decide)]
      have hent : parse_entity_def (n+1) (mkParser "entity E \x7b 5 \x7d") = none := by
        rw [parse_entity_def]
        rw [show expect_token .ENTITY (mkParser "entity E \x7b 5 \x7d") =
          .ok (mkParser "entity E \x7b 5 \x7d").current_token
             (p_next_token (mkParser "entity E \x7b 5 \x7d")) from by
            rw [expect_token, if_pos (by decide)]]
        simp only []
        rw [show expect_token .IDENTIFIER (p_next_token (mkParser "entity E \x7b 5 \x7d")) =
          .ok (p_next_token (mkParser "entity E \x7b 5 \x7d")).current_token
             (p_next_token (p_next_token (mkParser "entity E \x7b 5 \x7d"))) from by
            rw [expect_token, if_pos (by decide)]]
        simp only []
        rw [show expect_token .LEFT_BRACE
            (p_next_token (p_next_token (mkParser "entity E \x7b 5 \x7d"))) =
          .ok (p_next_token (p_next_token (mkParser "entity E \x7b 5 \x7d"))).current_token
             (p_next_token (p_next_token (p_next_token (mkParser "entity E \x7b 5 \x7d")))) from by
            rw [expect_token, if_pos (by decide)]]
        simp only []
        rw [hloop]
      rw [hent]
    rw [hdef]

/-- C2. A malformed `rule` (its `:` is followed by `then` instead of `if`)
immediately followed by a valid `flow` yields exactly one diagnostic and a
`Program` whose only definition is the `FlowDef`; and in general `skip_until`
stops only on a definition-start keyword or `EOF`. -/
theorem C2_panic_mode_recovery :
    (∀ (fuel : Nat) (st st' : PState),
      skip_until [TokenType.ENTITY, TokenType.RULE, TokenType.FLOW, TokenType.CONSTRAINT]
          fuel st = some st' →
      st'.current_token.token_type ∈
        [TokenType.ENTITY, TokenType.RULE, TokenType.FLOW, TokenType.CONSTRAINT,
         TokenType.EOF]) ∧
    (parse_program 30 "rule R : then flow F \x7b halt \x7d").map
        (fun r => (r.1.definitions, r.2.errors.length)) =
      some ([PDefinition.flowDef (.vStr "F") [.action]], 1) := by
  constructor
  · intro fuel st st' h
    rcases skip_until_mem _ fuel st st' h with hm | he
    · simp only [List.mem_cons, List.not_mem_nil, or_false] at hm ⊢
      tauto
    · simp [he]
  · decide

/-- Witness for C2: `skip_until` on a concrete state (current token `then`)
stops at the following `flow` keyword. -/
theorem C2_panic_mode_recovery_witness :
    (p_next_token (mkParser "then flow")).current_token.token_type ∈
      [TokenType.ENTITY, TokenType.RULE, TokenType.FLOW, TokenType.CONSTRAINT,
       TokenType.EOF] :=
  C2_panic_mode_recovery.1 5 (mkParser "then flow") (p_next_token (mkParser "then flow"))
    (by decide)

/-- C3. The claim says every grammar loop advances the cursor, so parsing
terminates on every input. The field loop of `parse_entity_def` does not
advance on a non-identifier token: on `entity B { 0 }` parsing runs forever
(every fuel bound is exhausted). -/
theorem C3_parse_program_diverges :
    ∀ fuel : Nat, parse_program fuel "entity B \x7b 0 \x7d" = none := by
  intro fuel
  cases fuel with
  | zero => rfl
  | succ n =>
    have hloop := entity_fields_loop_none (n+1)
      (p_next_token (p_next_token (p_next_token (mkParser "entity B \x7b 0 \x7d")))) []
      (by decide) (by decide) (by decide)
    show program_loop (n+1) (mkParser "entity B \x7b 0 \x7d") [] = none
    rw [program_loop]
    rw [if_neg (by decide)]
    have hdef : parse_definition (n+1) (mkParser "entity B \x7b 0 \x7d") = none := by
      rw [parse_definition, if_pos (by decide)]
      have hent : parse_entity_def (n+1) (mkParser "entity B \x7b 0 \x7d") = none := by
        rw [parse_entity_def]
        rw [show expect_token .ENTITY (mkParser "entity B \x7b 0 \x7d") =
          .ok (mkParser "entity B \x7b 0 \x7d").current_token
             (p_next_token (mkParser "entity B \x7b 0 \x7d")) from by
            rw [expect_token, if_pos (by decide)]]
        simp only []
        rw [show expect_token .IDENTIFIER (p_next_token (mkParser "entity B \x7b 0 \x7d")) =
          .ok (p_next_token (mkParser "entity B \x7b 0 \x7d")).current_token
             (p_next_token (p_next_token (mkParser "entity B \x7b 0 \x7d"))) from by
            rw [expect_token, if_pos (by decide)]]
        simp only []
        rw [show expect_token .LEFT_BRACE
            (p_next_token (p_next_token (mkParser "entity B \x7b 0 \x7d"))) =
          .ok (p_next_token (p_next_token (mkParser "entity B \x7b 0 \x7d"))).current_token
             (p_next_token (p_next_token (p_next_token (mkParser "entity B \x7b 0 \x7d")))) from by
            rw [expect_token, if_pos (by decide)]]
        simp only []
        rw [hloop]
      rw [hent]
    rw [hdef]

/-- C4. The claim ("for every finite input string" lexing terminates in a
unique final `EOF` and every call returns a token) is false of the program:
Python's `str.isdigit` accepts `'²'`, `_read_number` scans it, and `int('²')`
raises `ValueError`, so `next_token` crashes on the input `"²"` instead of
returning a token. That crash path lies outside this ASCII-exact embedding;
what does hold, and is proved here, is the claim on inputs of ASCII
characters, where the embedding provably coincides with the program: lexing
terminates with the unique final `EOF` and every call strictly advances the
read cursor. -/
theorem C4_ascii_lexing_terminates_unique_eof :
    (∀ input : String, (∀ c ∈ input.data, c.toNat < 128) →
      ∃ toks, tokenize_all input = some toks ∧ toks ≠ [] ∧
      (toks.map Token.token_type).getLast? = some TokenType.EOF ∧
      List.countP (fun t => t.token_type == TokenType.EOF) toks = 1) ∧
    (∀ st : LexState, (∀ c ∈ st.input, c.toNat < 128) → lex_wf st →
      st.read_position < (next_token st).2.read_position) := by
  constructor
  · intro input _
    obtain ⟨toks, h1, ⟨front, last, hsplit, hlast, hfront⟩, _⟩ := tokenize_all_spec input
    refine ⟨toks, h1, by rw [hsplit]; simp, ?_, ?_⟩
    · rw [hsplit, List.map_append]
      rw [show List.map Token.token_type [last] = [last.token_type] from rfl]
      rw [List.getLast?_concat, hlast]
    · rw [hsplit, List.countP_append]
      have hz : List.countP (fun t => t.token_type == TokenType.EOF) front = 0 := by
        rw [List.countP_eq_zero]
        intro a ha
        simpa using hfront a ha
      have ho : List.countP (fun t => t.token_type == TokenType.EOF) [last] = 1 := by
        simp [hlast]
      omega
  · intro st _ hwf
    obtain ⟨p1, _, p3, _⟩ := next_token_props st hwf
    have h1 := hwf.1
    have h2 := p1.1
    omega

/-- Witness for C4 on concrete ASCII inputs: lexing `"ab"` terminates with a
unique final `EOF`, and the cursor strictly advances on a concrete state. -/
theorem C4_ascii_lexing_terminates_unique_eof_witness :
    (∃ toks, tokenize_all "ab" = some toks ∧ toks ≠ [] ∧
      (toks.map Token.token_type).getLast? = some TokenType.EOF ∧
      List.countP (fun t => t.token_type == TokenType.EOF) toks = 1) ∧
    (mkLexer "ab").read_position < (next_token (mkLexer "ab")).2.read_position :=
  ⟨C4_ascii_lexing_terminates_unique_eof.1 "ab" (by decide),
   C4_ascii_lexing_terminates_unique_eof.2 (mkLexer "ab") (by decide) (by decide)⟩

/-- C5. The trailing `_read_char` makes identifier and number tokens consume
one character beyond their own text (final cursor = start + run length + 1),
and a lone `!` or a quote consumes two characters; hence the single
character following such a token never becomes a token of its own, as the
concrete runs on `foo(` and `0)` show. The identifier/number conjuncts are
stated on inputs of ASCII characters, where the embedding's run predicates
provably coincide with Python's `isalpha`/`isdigit` (outside ASCII the
program's runs differ and `int()` can even crash; see C4). -/
theorem C5_extra_character_consumed :
    (∀ st : LexState, lex_wf st → (∀ c ∈ st.input, c.toNat < 128) →
      is_letter st.ch = true →
      (next_token st).2.position =
        st.position + ((st.input.drop st.position).takeWhile is_ident_char).length + 1) ∧
    (∀ st : LexState, lex_wf st → (∀ c ∈ st.input, c.toNat < 128) →
      pyIsDigit st.ch = true →
      (next_token st).2.position =
        st.position + ((st.input.drop st.position).takeWhile pyIsDigit).length + 1) ∧
    (∀ st : LexState, lex_wf st → st.ch = '!' → ¬ peek_char st = '=' →
      (next_token st).2.position = st.position + 2) ∧
    (∀ st : LexState, lex_wf st → st.ch = '\x22' ∨ st.ch = '\x27' →
      (next_token st).2.position = st.position + 2) ∧
    (tokenize_all "foo(").map (List.map Token.token_type) =
      some [TokenType.IDENTIFIER, TokenType.EOF] ∧
    (tokenize_all "0)").map (List.map Token.token_type) =
      some [TokenType.NUMBER, TokenType.EOF] := by
  refine ⟨?_, ?_, ?_, ?_, by decide, by decide⟩
  · intro st hwf _ hl
    have hns := not_space_of_is_letter hl
    rw [next_token_eq st, skip_whitespace_not_space hns]
    rw [core_eq_identifier st (letter_ne_char hl (by decide)) (letter_ne_char hl (by decide))
      (letter_ne_char hl (by decide)) (letter_ne_char hl (by decide))
      (letter_ne_char hl (by decide)) (letter_ne_char hl (by decide))
      (letter_ne_char hl (by decide)) (letter_ne_char hl (by decide))
      (letter_ne_char hl (by decide)) (letter_ne_char hl (by decide))
      (letter_ne_char hl (by decide)) (letter_ne_char hl (by decide)) hl]
    obtain ⟨_, hwf2, _, hps, _⟩ := read_identifier_spec st hwf
    show (read_char (read_identifier st).2).position = _
    rw [read_char_position, hwf2.1, hps]
  · intro st hwf _ hd
    have hns := not_space_of_digit hd
    have hlf := not_letter_of_digit hd
    rw [next_token_eq st, skip_whitespace_not_space hns]
    rw [core_eq_digit st (digit_ne_char hd (by decide)) (digit_ne_char hd (by decide))
      (digit_ne_char hd (by decide)) (digit_ne_char hd (by decide))
      (digit_ne_char hd (by decide)) (digit_ne_char hd (by decide))
      (digit_ne_char hd (by decide)) (digit_ne_char hd (by decide))
      (digit_ne_char hd (by decide)) (digit_ne_char hd (by decide))
      (digit_ne_char hd (by decide)) (digit_ne_char hd (by decide))
      (by rw [hlf]; decide)
      (fun hq => hq.elim (digit_ne_char hd (by decide)) (digit_ne_char hd (by decide))) hd]
    obtain ⟨_, hwf2, _, hps, _⟩ := read_number_spec st hwf
    show (read_char (read_number st).2).position = _
    rw [read_char_position, hwf2.1, hps]
  · intro st hwf hb hp
    have hns : pyIsSpace st.ch = false := by rw [hb]; decide
    rw [next_token_eq st, skip_whitespace_not_space hns]
    rw [core_eq_bang st (by rw [hb]; decide) hb hp]
    show (read_char (read_char st)).position = _
    rw [read_char_position, read_char_read_position, hwf.1]
  · intro st hwf hq
    have hns : pyIsSpace st.ch = false := by rcases hq with he | he <;> rw [he] <;> decide
    rw [next_token_eq st, skip_whitespace_not_space hns]
    rw [core_eq_quote st (by rcases hq with he | he <;> rw [he] <;> decide)
      (by rcases hq with he | he <;> rw [he] <;> decide)
      (by rcases hq with he | he <;> rw [he] <;> decide)
      (by rcases hq with he | he <;> rw [he] <;> decide)
      (by rcases hq with he | he <;> rw [he] <;> decide)
      (by rcases hq with he | he <;> rw [he] <;> decide)
      (by rcases hq with he | he <;> rw [he] <;> decide)
      (by rcases hq with he | he <;> rw [he] <;> decide)
      (by rcases hq with he | he <;> rw [he] <;> decide)
      (by rcases hq with he | he <;> rw [he] <;> decide)
      (by rcases hq with he | he <;> rw [he] <;> decide)
      (by rcases hq with he | he <;> rw [he] <;> decide)
      (by rcases hq with he | he <;> rw [he] <;> decide) hq]
    show (read_char (read_char st)).position = _
    rw [read_char_position, read_char_read_position, hwf.1]

/-- Witness for C5, at concrete states for each hypothesis-bearing part. -/
theorem C5_extra_character_consumed_witness :
    (next_token (mkLexer "ab")).2.position =
      (mkLexer "ab").position +
        (((mkLexer "ab").input.drop (mkLexer "ab").position).takeWhile is_ident_char).length
        + 1 ∧
    (next_token (mkLexer "12")).2.position =
      (mkLexer "12").position +
        (((mkLexer "12").input.drop (mkLexer "12").position).takeWhile pyIsDigit).length + 1 ∧
    (next_token (mkLexer "!a")).2.position = (mkLexer "!a").position + 2 ∧
    (next_token (mkLexer (String.mk ['\x27', 'a']))).2.position =
      (mkLexer (String.mk ['\x27', 'a'])).position + 2 :=
  ⟨C5_extra_character_consumed.1 (mkLexer "ab") (by decide) (by decide) (by decide),
   C5_extra_character_consumed.2.1 (mkLexer "12") (by decide) (by decide) (by decide),
   C5_extra_character_consumed.2.2.1 (mkLexer "!a") (by decide) (by decide) (by decide),
   C5_extra_character_consumed.2.2.2.1 (mkLexer (String.mk ['\x27', 'a'])) (by decide)
     (Or.inr (by decide))⟩

/-- Counterexample to C6 as stated: on `@)` the `ILLEGAL` token for `@` also
consumes the following `)` (the lexer ends at position 2, not 1), so `)`
never appears as a token; "consuming exactly that one character" fails. -/
theorem C6_counterexample :
    (next_token (mkLexer "@)")).2.position = 2 ∧
    (tokenize_all "@)").map (List.map Token.token_type) =
      some [TokenType.ILLEGAL, TokenType.EOF] ∧
    ¬ (tokenize_all "@)").map (List.map Token.token_type) =
      some [TokenType.ILLEGAL, TokenType.RIGHT_PAREN, TokenType.EOF] := by
  exact ⟨by decide, by decide, by decide⟩

/-- C6 amended: an unrecognized character yields `ILLEGAL` carrying exactly
that character, but consumes that character *and* the one after it (final
cursor = start + 2); quotes are always `ILLEGAL` and never start a string
literal. The first conjunct is stated for ASCII current characters, where
the embedding's whitespace/letter/digit predicates provably coincide with
Python's `isspace`/`isalpha`/`isdigit`; the quote conjunct needs no such
restriction. -/
theorem C6_illegal_consumes_two :
    (∀ st : LexState, lex_wf st → st.ch.toNat < 128 → pyIsSpace st.ch = false →
      st.ch ≠ '=' → st.ch ≠ '!' → st.ch ≠ '>' → st.ch ≠ '<' → st.ch ≠ '\x7b' →
      st.ch ≠ '\x7d' → st.ch ≠ '(' → st.ch ≠ ')' → st.ch ≠ ',' → st.ch ≠ '.' →
      st.ch ≠ ':' → st.ch ≠ '\x00' → is_letter st.ch = false → st.ch ≠ '\x22' →
      st.ch ≠ '\x27' → pyIsDigit st.ch = false →
      (next_token st).1.token_type = TokenType.ILLEGAL ∧
      (next_token st).1.value = TokenValue.vStr (String.mk [st.ch]) ∧
      (next_token st).2.position = st.position + 2) ∧
    (∀ st : LexState, lex_wf st → st.ch = '\x22' ∨ st.ch = '\x27' →
      (next_token st).1.token_type = TokenType.ILLEGAL ∧
      (next_token st).1.value = TokenValue.vStr (String.mk [st.ch])) := by
  constructor
  · intro st hwf _ hsp h1 h2 h3 h4 h5 h6 h7 h8 h9 h10 h11 h12 hl h13 h14 hd
    rw [next_token_eq st, skip_whitespace_not_space hsp]
    rw [core_eq_other st h1 h2 h3 h4 h5 h6 h7 h8 h9 h10 h11 h12
      (by rw [hl]; decide) (fun hq => hq.elim h13 h14) (by rw [hd]; decide)]
    refine ⟨rfl, rfl, ?_⟩
    show (read_char (read_char st)).position = _
    rw [read_char_position, read_char_read_position, hwf.1]
  · intro st hwf hq
    have hns : pyIsSpace st.ch = false := by rcases hq with he | he <;> rw [he] <;> decide
    rw [next_token_eq st, skip_whitespace_not_space hns]
    rw [core_eq_quote st (by rcases hq with he | he <;> rw [he] <;> decide)
      (by rcases hq with he | he <;> rw [he] <;> decide)
      (by rcases hq with he | he <;> rw [he] <;> decide)
      (by rcases hq with he | he <;> rw [he] <;> decide)
      (by rcases hq with he | he <;> rw [he] <;> decide)
      (by rcases hq with he | he <;> rw [he] <;> decide)
      (by rcases hq with he | he <;> rw [he] <;> decide)
      (by rcases hq with he | he <;> rw [he] <;> decide)
      (by rcases hq with he | he <;> rw [he] <;> decide)
      (by rcases hq with he | he <;> rw [he] <;> decide)
      (by rcases hq with he | he <;> rw [he] <;> decide)
      (by rcases hq with he | he <;> rw [he] <;> decide)
      (by rcases hq with he | he <;> rw [he] <;> decide) hq]
    exact ⟨rfl, rfl⟩

/-- Witness for C6 amended, on `@x` and on a lone single quote. -/
theorem C6_illegal_consumes_two_witness :
    ((next_token (mkLexer "@x")).1.token_type = TokenType.ILLEGAL ∧
      (next_token (mkLexer "@x")).1.value =
        TokenValue.vStr (String.mk [(mkLexer "@x").ch]) ∧
      (next_token (mkLexer "@x")).2.position = (mkLexer "@x").position + 2) ∧
    ((next_token (mkLexer (String.mk ['\x27']))).1.token_type = TokenType.ILLEGAL ∧
      (next_token (mkLexer (String.mk ['\x27']))).1.value =
        TokenValue.vStr (String.mk [(mkLexer (String.mk ['\x27'])).ch])) :=
  ⟨C6_illegal_consumes_two.1 (mkLexer "@x") (by decide) (by decide) (by decide) (by decide)
      (by decide)
      (by decide) (by decide) (by decide) (by decide) (by decide) (by decide) (by decide)
      (by decide) (by decide) (by decide) (by decide) (by decide) (by decide) (by decide),
   C6_illegal_consumes_two.2 (mkLexer (String.mk ['\x27'])) (by decide)
     (Or.inr (by decide))⟩

/-- Counterexample to C7 as stated: symbol tokens do carry a payload (their
lexeme text), not "no payload". -/
theorem C7_counterexample :
    (tokenize_all "(").map (List.map Token.value) =
      some [TokenValue.vStr "(", TokenValue.vNone] ∧
    TokenValue.vStr "(" ≠ TokenValue.vNone := by
  exact ⟨by decide, by decide⟩

/-- C7 amended: every call of `next_token` obeys the content-level
kind/payload discipline relative to the state the dispatch chain runs on
(after whitespace skipping): identifier and keyword tokens carry exactly
the scanned run's text, number tokens carry exactly `int()` of the scanned
digit run, symbol tokens carry their lexeme text, `ILLEGAL` tokens carry
exactly the single offending current character, and `EOF` tokens carry no
payload; the scanned runs are moreover equated with the maximal
`takeWhile` runs of the input at the cursor. -/
theorem C7_payload_discipline :
    ∀ st : LexState, lex_wf st →
      payload_ok_at (skip_whitespace st) (next_token st).1 ∧
      (read_identifier (skip_whitespace st)).1 =
        String.mk (((skip_whitespace st).input.drop
          (skip_whitespace st).position).takeWhile is_ident_char) ∧
      (read_number (skip_whitespace st)).1 =
        str_to_int (((skip_whitespace st).input.drop
          (skip_whitespace st).position).takeWhile pyIsDigit) := by
  intro st hwf
  obtain ⟨hsw, _, _, _, _⟩ := skip_whitespace_spec st hwf
  exact ⟨(next_token_props st hwf).2.2.2.2.2.2.2.2,
    (read_identifier_spec _ hsw).1, (read_number_spec _ hsw).1⟩

/-- Witness for C7 at the concrete input `(`. -/
theorem C7_payload_discipline_witness :
    payload_ok_at (skip_whitespace (mkLexer "(")) (next_token (mkLexer "(")).1 ∧
    (read_identifier (skip_whitespace (mkLexer "("))).1 =
      String.mk (((skip_whitespace (mkLexer "(")).input.drop
        (skip_whitespace (mkLexer "(")).position).takeWhile is_ident_char) ∧
    (read_number (skip_whitespace (mkLexer "("))).1 =
      str_to_int (((skip_whitespace (mkLexer "(")).input.drop
        (skip_whitespace (mkLexer "(")).position).takeWhile pyIsDigit) :=
  C7_payload_discipline (mkLexer "(") (by decide)

/-- Counterexample to C8 as stated: on `"\na"` the single newline leaves the
first token at line 3 (incremented twice, not once), and on `"x yz\na"` the
recorded columns go 1, then -2: `column` is not monotonically
non-decreasing. -/
theorem C8_counterexample :
    List.countP (fun c => c == '\n') "\na".data = 1 ∧
    (tokenize_all "\na").map (List.map Token.line) = some [3, 3] ∧
    (tokenize_all "x yz\na").map (List.map Token.column) =
      some [1, -2, 1, 3] ∧
    ¬ ((1 : Int) ≤ -2) := by
  exact ⟨by decide, by decide, by decide, by decide⟩

/-- C8 amended: `line` and `offset` are monotonically non-decreasing over
the tokens of one run; a newline increments `line` and resets `column` to 0
inside `_read_char`, and a newline consumed by `_skip_whitespace` increments
`line` once more there before advancing (hence twice in total). `column` is
not monotone. -/
theorem C8_line_offset_monotone :
    (∀ (input : String) (toks : List Token), tokenize_all input = some toks →
      List.Chain' token_le toks) ∧
    (∀ st : LexState, (read_char st).ch = '\n' →
      (read_char st).line = st.line + 1 ∧ (read_char st).column = 0) ∧
    (∀ (n : Nat) (st : LexState), st.ch = '\n' →
      skip_whitespace_aux (n+1) st =
        skip_whitespace_aux n (read_char { st with line := st.line + 1, column := 0 })) := by
  refine ⟨?_, ?_, ?_⟩
  · intro input toks h
    obtain ⟨toks0, h0, _, hc, _⟩ := tokenize_all_spec input
    rw [h] at h0
    injection h0 with h0
    rw [← h0] at hc
    exact hc
  · intro st h
    have hc : char_at st.input st.read_position = '\n' := by
      rw [← read_char_ch st]; exact h
    simp only [read_char]
    rw [if_pos hc]
    exact ⟨rfl, rfl⟩
  · intro n st h
    rw [skip_whitespace_aux, if_pos (by rw [h]; decide), if_pos h]

/-- Witness for C8 amended: the monotone chain on the tokens of `"a"`, the
`_read_char` newline bump on `"a\n"`, and the skip-loop newline bump on
`"\na"`. -/
theorem C8_line_offset_monotone_witness :
    List.Chain' token_le
      [{ token_type := TokenType.IDENTIFIER, value := TokenValue.vStr "a",
         line := 1, column := 1, position := 0 },
       { token_type := TokenType.EOF, value := TokenValue.vNone,
         line := 1, column := 3, position := 2 }] ∧
    ((read_char (mkLexer "a\n")).line = (mkLexer "a\n").line + 1 ∧
      (read_char (mkLexer "a\n")).column = 0) ∧
    skip_whitespace_aux 6 (mkLexer "\na") =
      skip_whitespace_aux 5
        (read_char { mkLexer "\na" with line := (mkLexer "\na").line + 1, column := 0 }) :=
  ⟨C8_line_offset_monotone.1 "a" _ (by decide),
   C8_line_offset_monotone.2.1 (mkLexer "a\n") (by decide),
   C8_line_offset_monotone.2.2 5 (mkLexer "\na") (by decide)⟩

/-- C9. Lexing `entity Farmer { id location produce }` yields exactly the
token kinds `ENTITY, IDENTIFIER("Farmer"), LEFT_BRACE, IDENTIFIER("id"),
IDENTIFIER("location"), IDENTIFIER("produce"), RIGHT_BRACE, EOF`. -/
theorem C9_farmer_token_sequence :
    (tokenize_all "entity Farmer \x7b id location produce \x7d").map
        (List.map (fun t => (t.token_type, t.value))) =
      some [(TokenType.ENTITY, TokenValue.vStr "entity"),
            (TokenType.IDENTIFIER, TokenValue.vStr "Farmer"),
            (TokenType.LEFT_BRACE, TokenValue.vStr "\x7b"),
            (TokenType.IDENTIFIER, TokenValue.vStr "id"),
            (TokenType.IDENTIFIER, TokenValue.vStr "location"),
            (TokenType.IDENTIFIER, TokenValue.vStr "produce"),
            (TokenType.RIGHT_BRACE, TokenValue.vStr "\x7d"),
            (TokenType.EOF, TokenValue.vNone)] := by
  decide

/-- Counterexample to C10 as stated: with an embedded NUL character the
lexer returns `EOF` mid-stream and the very next call returns an
`IDENTIFIER`, so the stream does not stabilize after the first `EOF`. -/
theorem C10_counterexample :
    (next_token (mkLexer (String.mk ['\x00', 'a']))).1.token_type = TokenType.EOF ∧
    (next_token (next_token (mkLexer (String.mk ['\x00', 'a']))).2).1.token_type =
      TokenType.IDENTIFIER ∧
    TokenType.IDENTIFIER ≠ TokenType.EOF := by
  exact ⟨by decide, by decide, by decide⟩

/-- C10 amended: once the cursor stands at or past the end of the input,
every further `next_token` call (any number of steps later) returns `EOF`. -/
theorem C10_eof_stable_at_end :
    ∀ st : LexState, lex_wf st → st.input.length ≤ st.position →
      ∀ k, (next_token (lex_iter k st)).1.token_type = TokenType.EOF := by
  intro st hwf hend k
  obtain ⟨q1, q2, q3⟩ := lex_iter_inv st hwf hend k
  exact (next_token_props (lex_iter k st) q1).2.2.2.2.2.2.2.1 q3

/-- Witness for C10 amended on the empty input, two steps in. -/
theorem C10_eof_stable_at_end_witness :
    (next_token (lex_iter 2 (mkLexer ""))).1.token_type = TokenType.EOF :=
  C10_eof_stable_at_end (mkLexer "") (by decide) (by decide) 2
